import Mathlib

/-!
Verification of the record-transformation-and-routing engine
(`app/services/processing_engine.py`, `app/services/routing_engine.py`,
`app/services/delivery_engine.py`, `app/services/unknown_field_service.py`)
as a shallow embedding.  Python dictionaries become ordered association
lists, the Mongo-backed document store becomes explicit lists of documents
threaded through the functions, the `re` module and the outbound HTTP
client become oracle parameters, and the Celery task queue becomes a list
of queued work items.  Python exceptions around external calls are
modelled with `Except`/`Option`, caught exactly where the source catches
them.
-/

/-- Payload / condition values: the JSON-ish value domain of ingested
payloads (string / number / bool / null / list), mirroring the dynamic
values the Python code manipulates.  Numbers are modelled as `Int`
(payload numerics); `float(...)` coercion happens through `parseFloat`. -/
inductive Val where
  | null
  | str (s : String)
  | int (n : Int)
  | bool (b : Bool)
  | list (l : List Val)

mutual

/-- Structural equality on values, mirroring Python `==` on the modelled
value domain. -/
def valEq : Val → Val → Bool
  | .null, .null => true
  | .str a, .str b => a == b
  | .int a, .int b => a == b
  | .bool a, .bool b => a == b
  | .list a, .list b => valListEq a b
  | _, _ => false

def valListEq : List Val → List Val → Bool
  | [], [] => true
  | a :: as, b :: bs => valEq a b && valListEq as bs
  | _, _ => false

end

instance : BEq Val := ⟨valEq⟩

/-- ASCII lower-casing of one character, as `str.lower()` acts on the
ASCII range. -/
def lowerChar (c : Char) : Char :=
  if h : 65 ≤ c.toNat ∧ c.toNat ≤ 90 then
    Char.ofNatAux (c.toNat + 32) (Or.inl (by omega))
  else c

/-- ASCII upper-casing of one character, as `str.upper()` acts on the
ASCII range. -/
def upperChar (c : Char) : Char :=
  if h : 97 ≤ c.toNat ∧ c.toNat ≤ 122 then
    Char.ofNatAux (c.toNat - 32) (Or.inl (by omega))
  else c

/-- `s.lower()` (ASCII model). -/
def strLower (s : String) : String := String.mk (s.data.map lowerChar)

/-- `s.upper()` (ASCII model). -/
def strUpper (s : String) : String := String.mk (s.data.map upperChar)

/-- Python whitespace class used by `str.strip()`. -/
def isPySpace (c : Char) : Bool :=
  c == ' ' || decide (9 ≤ c.toNat ∧ c.toNat ≤ 13)

/-- `str.strip()` on a character list. -/
def trimChars (l : List Char) : List Char :=
  ((l.dropWhile isPySpace).reverse.dropWhile isPySpace).reverse

/-- Does `l` start with `pre`? (list-level, for substring search). -/
def listStarts : List Char → List Char → Bool
  | _, [] => true
  | [], _ :: _ => false
  | a :: as, b :: bs => a == b && listStarts as bs

/-- Substring occurrence check on character lists; Python `needle in hay`. -/
def containsSub : List Char → List Char → Bool
  | [], needle => needle.isEmpty
  | c :: rest, needle => listStarts (c :: rest) needle || containsSub rest needle

/-- Python `needle in hay` on strings. -/
def strContains (hay needle : String) : Bool := containsSub hay.data needle.data

/-- Lexicographic string comparison by code point, Python `a < b` on
strings (used for the HH:MM schedule comparison). -/
def strLt : List Char → List Char → Bool
  | [], [] => false
  | [], _ :: _ => true
  | _ :: _, [] => false
  | a :: as, b :: bs =>
      if a.toNat < b.toNat then true
      else if b.toNat < a.toNat then false
      else strLt as bs

/-- Python `a < b` on strings. -/
def pyStrLt (a b : String) : Bool := strLt a.data b.data

/-- Fuelled splitter: `s.split(sep)` for a non-empty separator.  The fuel
is the length of the input, which bounds the recursion. -/
def splitGo (sep : List Char) : Nat → List Char → List Char → List (List Char)
  | 0, l, acc => [(acc.reverse ++ l)]
  | fuel + 1, l, acc =>
    match l with
    | [] => [acc.reverse]
    | c :: rest =>
        if l.take sep.length == sep then
          acc.reverse :: splitGo sep fuel (l.drop sep.length) []
        else
          splitGo sep fuel rest (c :: acc)

/-- Python `s.split(sep)` for a non-empty separator string. -/
def pySplit (s sep : String) : List String :=
  (splitGo sep.data (s.data.length + 1) s.data []).map String.mk

/-- Python `sep.join(l)`. -/
def joinSep (sep : String) : List String → String
  | [] => ""
  | x :: xs => xs.foldl (fun acc y => acc ++ sep ++ y) x

/-- Decimal digit run to a natural number. -/
def digitsToNat (l : List Char) : Nat :=
  l.foldl (fun acc c => acc * 10 + (c.toNat - 48)) 0

/-- Are all characters decimal digits? -/
def allDigits (l : List Char) : Bool :=
  l.all (fun c => decide (48 ≤ c.toNat ∧ c.toNat ≤ 57))

/-- An exact (unnormalized) rational `num / den` with `den > 0`, the
result of a successful Python `float(...)` coercion.  Only the ordering
on these numbers is ever consumed (the numeric rule operators), so no
normalization is needed. -/
structure PyNum where
  num : Int
  den : Int
deriving DecidableEq

/-- Ordering of exact fractions by cross-multiplication (`den` is
positive by construction). -/
def numLt (a b : PyNum) : Bool := a.num * b.den < b.num * a.den

/-- Python `float(s)` on the common decimal forms `[+-]digits`,
`[+-]digits.digits`, `[+-].digits`, `[+-]digits.` (with surrounding
whitespace allowed); anything else fails, as `float` raises. -/
def parseFloat (s : String) : Option PyNum :=
  let cs := trimChars s.data
  let sign : Int × List Char :=
    match cs with
    | c :: rest =>
        if c == '-' then (-1, rest)
        else if c == '+' then (1, rest) else (1, cs)
    | [] => (1, [])
  let body := sign.2
  let intPart := body.takeWhile (fun c => !(c == '.'))
  let rest := body.dropWhile (fun c => !(c == '.'))
  match rest with
  | [] =>
      if intPart.isEmpty then none
      else if allDigits intPart then some ⟨sign.1 * digitsToNat intPart, 1⟩ else none
  | _ :: frac =>
      if frac.any (fun c => c == '.') then none
      else if intPart.isEmpty && frac.isEmpty then none
      else if allDigits intPart && allDigits frac then
        some ⟨sign.1 * ((digitsToNat intPart : Int) * (10 ^ frac.length : Nat) + digitsToNat frac),
              ((10 ^ frac.length : Nat) : Int)⟩
      else none

mutual

/-- Python `str(v)` for the modelled value domain.  Lists render their
elements with `repr`, where only strings differ from `str` (they gain
quotes). -/
def valToString : Val → String
  | .null => "None"
  | .str s => s
  | .int n => toString n
  | .bool true => "True"
  | .bool false => "False"
  | .list l => "[" ++ joinSep ", " (valReprList l) ++ "]"

def valReprList : List Val → List String
  | [] => []
  | .str s :: vs => ("\x27" ++ s ++ "\x27") :: valReprList vs
  | v :: vs => valToString v :: valReprList vs

end

/-- Python `float(v)`: ints and bools coerce, numeric strings parse,
`None` and lists raise (here: `none`). -/
def toNum : Val → Option PyNum
  | .int n => some ⟨n, 1⟩
  | .bool b => some ⟨if b then 1 else 0, 1⟩
  | .str s => parseFloat s
  | _ => none

/-- Python truthiness of a value. -/
def truthy : Val → Bool
  | .null => false
  | .str s => !(s == "")
  | .int n => !(n == 0)
  | .bool b => b
  | .list l => !l.isEmpty

/-- Truthiness of `dict.get(...)`: `None` for a missing key is falsy. -/
def optTruthy : Option Val → Bool
  | none => false
  | some v => truthy v

/-- Truthiness of an optional string (`Optional[str]` config fields). -/
def optStrTruthy : Option String → Bool
  | none => false
  | some s => !(s == "")

/-- A Python `dict` with insertion order: an association list with unique
keys. -/
abbrev Payload := List (String × Val)

/-- `d.get(k)` (also `d[k]` when present). -/
def dictGet (p : Payload) (k : String) : Option Val :=
  (p.find? (fun kv => kv.1 == k)).map (·.2)

/-- `d[k] = v`: overwrite in place when the key exists, else append. -/
def dictInsert (p : Payload) (k : String) (v : Val) : Payload :=
  if p.any (fun kv => kv.1 == k) then
    p.map (fun kv => if kv.1 == k then (kv.1, v) else kv)
  else p ++ [(k, v)]

/-- `d.pop(k)`. -/
def dictRemove (p : Payload) (k : String) : Payload :=
  p.filter (fun kv => !(kv.1 == k))

/-- `k in d`. -/
def dictHas (p : Payload) (k : String) : Bool :=
  p.any (fun kv => kv.1 == k)

example : numLt ⟨-35, 10⟩ ⟨1, 1⟩ = true := by decide

/-! ## Rule predicate evaluator (`ProcessingEngine.evaluate_*`, `app/models/rules.py`) -/

/-- `RuleCondition` from `app/models/rules.py`. -/
structure RuleCondition where
  field : String
  op : String
  value : Val

/-- The recursive rule tree: `RuleGroup` (logic + children) whose children
are conditions or nested groups (`app/models/rules.py`). -/
inductive RuleNode where
  | condition (c : RuleCondition)
  | group (logic : String) (conditions : List RuleNode)

/-- `SourceRules` from `app/models/rules.py` (`filtering` is optional). -/
structure SourceRules where
  filtering : Option RuleNode

/-- The regular-expression oracle standing for Python's `re.search`:
given pattern and subject it returns `some b` when the search ran and
found (`b = true`) or did not find a match, and `none` when `re` raised
(invalid pattern). -/
abbrev ReOracle := String → String → Option Bool

/-- `ProcessingEngine.evaluate_condition`.  `payload.get(...)` yields
Python `None` for a missing key, so the field value defaults to
`Val.null`.  Every fallible coercion (`float`, `re.search`) is wrapped in
`try/except` in the source and degrades to `false` here. -/
def evaluate_condition (re_search : ReOracle) (payload : Payload) (condition : RuleCondition) : Bool :=
  let field_val : Val := (dictGet payload condition.field).getD .null
  let target_val : Val := condition.value
  if condition.op == "eq" then valToString field_val == valToString target_val
  else if condition.op == "neq" then !(valToString field_val == valToString target_val)
  else if condition.op == "gt" then
    match toNum field_val, toNum target_val with
    | some a, some b => numLt b a
    | _, _ => false
  else if condition.op == "lt" then
    match toNum field_val, toNum target_val with
    | some a, some b => numLt a b
    | _, _ => false
  else if condition.op == "gte" then
    match toNum field_val, toNum target_val with
    | some a, some b => !numLt a b
    | _, _ => false
  else if condition.op == "lte" then
    match toNum field_val, toNum target_val with
    | some a, some b => !numLt b a
    | _, _ => false
  else if condition.op == "in" then
    match target_val with
    | .list l => l.contains field_val
    | _ => strContains (valToString target_val) (valToString field_val)
  else if condition.op == "nin" then
    match target_val with
    | .list l => !(l.contains field_val)
    | _ => !(strContains (valToString target_val) (valToString field_val))
  else if condition.op == "contains" then
    strContains (strLower (valToString field_val)) (strLower (valToString target_val))
  else if condition.op == "regex" then
    match re_search (valToString target_val) (valToString field_val) with
    | some b => b
    | none => false
  else true

mutual

/-- `ProcessingEngine.evaluate_group`: collect the children's results,
an empty result list yields `true`, otherwise combine with `all`/`any`
according to the group's logic. -/
def evaluate_group (re_search : ReOracle) (payload : Payload) : RuleNode → Bool
  | .condition c => evaluate_condition re_search payload c
  | .group logic conditions =>
      let results := evalChildren re_search payload conditions
      if results.isEmpty then true
      else if logic == "and" then results.all (fun b => b)
      else results.any (fun b => b)

/-- The `for condition in group.conditions` loop of `evaluate_group`. -/
def evalChildren (re_search : ReOracle) (payload : Payload) : List RuleNode → List Bool
  | [] => []
  | n :: ns => evaluate_group re_search payload n :: evalChildren re_search payload ns

end

/-- `ProcessingEngine.evaluate_rules`: a source/campaign rule set with no
filtering tree admits everything. -/
def evaluate_rules (re_search : ReOracle) (payload : Payload) (rules : SourceRules) : Bool :=
  match rules.filtering with
  | none => true
  | some g => evaluate_group re_search payload g

/-! ## Normalization stage (`ProcessingEngine.apply_normalization`) -/

/-- `NormalizationRule` from `app/models/normalization.py`. -/
structure NormalizationRule where
  field : String
  operation : String
deriving DecidableEq

/-- `SourceNormalization` from `app/models/normalization.py`. -/
structure SourceNormalization where
  rules : List NormalizationRule

/-- One iteration of the `for rule in normalization.rules` loop of
`apply_normalization`: only `lowercase` and `uppercase` are implemented,
and only fields present in the payload are touched. -/
def applyNormRule (payload : Payload) (rule : NormalizationRule) : Payload :=
  match dictGet payload rule.field with
  | none => payload
  | some val =>
      if rule.operation == "lowercase" then
        dictInsert payload rule.field (.str (strLower (valToString val)))
      else if rule.operation == "uppercase" then
        dictInsert payload rule.field (.str (strUpper (valToString val)))
      else payload

/-- `ProcessingEngine.apply_normalization`. -/
def apply_normalization (payload : Payload) (normalization : SourceNormalization) : Payload :=
  if normalization.rules.isEmpty then payload
  else normalization.rules.foldl applyNormRule payload

/-! ## Alias normalization (`UnknownFieldService.normalize_alias`) and the
smart-match key normalization of `apply_mapping` -/

/-- Is the character in `[a-z0-9]`? -/
def isLowerAlnum (c : Char) : Bool :=
  decide (97 ≤ c.toNat ∧ c.toNat ≤ 122) || decide (48 ≤ c.toNat ∧ c.toNat ≤ 57)

/-- `UnknownFieldService.normalize_alias`: lowercase, strip, then drop
every character outside `[a-z0-9]`. -/
def normalize_alias (val : String) : String :=
  if val == "" then ""
  else String.mk ((trimChars (strLower val).data).filter isLowerAlnum)

/-- The smart-fallback key normalization used in the declared-rules loop
of `apply_mapping`: `k.lower().replace("_", "").replace(" ", "")`. -/
def smartNorm (s : String) : String :=
  String.mk ((strLower s).data.filter (fun c => !(c == '_') && !(c == ' ')))


/-! ## Document model

The persistent documents (`app/models/*.py`), limited to the fields the
embedded engine code reads or writes.  Object ids are modelled as `Nat`
for Mongo `ObjectId`-typed ids (`Campaign.id`, `Lead.id`) and `String`
for the uuid-string ids (`Source.id`, `Destination.id`, `Customer.id`);
timestamps are seconds as `Int`. -/

/-- `AliasEntry` from `app/models/system_field.py`. -/
structure AliasEntry where
  alias_raw : String
  alias_normalized : String
  scope : String
  confidence : String
  owner_id : Option String
  vendor_id : Option String
  source_id : Option String

/-- `SystemField` from `app/models/system_field.py` (catalog metadata
such as label and data type omitted: the engine never reads it). -/
structure SystemField where
  tenant_id : String
  owner_id : String
  field_key : String
  aliases : List AliasEntry

/-- `MappingRule` from `app/models/mapping.py`. -/
structure MappingRule where
  source_field : String
  target_field : Option String
  default_value : Option String
  is_required : Bool
  is_static : Bool

/-- `SourceMapping` from `app/models/mapping.py`. -/
structure SourceMapping where
  rules : List MappingRule

/-- `SourceConfig` from `app/models/vendor.py`, limited to the fields the
engine reads.  Note that the class declares **no**
`duplicate_redirect_source_id` attribute (the full declared field list is
`rate_limit, status, dupe_check, dupe_check_days, dupe_fields, rate,
dynamic_dupe_check, exclude_from_global_dupe_checks, append_dupes,
use_as_suppression_list, send_filtered_leads_to, dupe_check_timeframe,
dupe_field_1, dupe_field_2, dupe_field_operator`); reading it raises
`AttributeError`, which `configDuplicateRedirectSourceId` models. -/
structure SourceConfig where
  status : String
  dupe_check : Bool
  dupe_check_days : Int
  dupe_fields : List String
  dupe_field_operator : String

/-- The attribute access `source.config.duplicate_redirect_source_id`
performed by `ProcessingEngine.process_record`.  `SourceConfig` declares
no such field and pydantic models raise `AttributeError` when an
undeclared attribute is read, so the access always fails. -/
def configDuplicateRedirectSourceId (_ : SourceConfig) : Except String (Option String) :=
  .error "AttributeError: SourceConfig object has no attribute duplicate_redirect_source_id"

/-- `Source` from `app/models/vendor.py` (fields the engine reads). -/
structure Source where
  id : String
  name : String
  config : SourceConfig
  mapping : SourceMapping
  normalization : SourceNormalization
  rules : SourceRules

/-- `Vendor` from `app/models/vendor.py` (fields the engine reads). -/
structure Vendor where
  id : String
  tenant_id : String
  owner_id : String
  status : String
  sources : List Source

/-- `RoutingResult` from `app/models/lead.py`. -/
structure RoutingResult where
  customer_id : String
  customer_name : Option String
  campaign_id : String
  campaign_name : Option String
  destination_id : Option String
  destination_name : Option String
  status : String
  delivered_at : Int
  error_message : Option String

/-- `Lead` from `app/models/lead.py`. -/
structure Lead where
  id : Nat
  tenant_id : String
  owner_id : String
  vendor_id : String
  source_id : String
  lead_id : Option String
  data : Payload
  original_payload : Payload
  status : String
  rejection_reason : Option String
  routing_results : List RoutingResult
  created_at : Int

/-- `UnknownField` from `app/models/unknown_field.py`. -/
structure UnknownField where
  tenant_id : String
  owner_id : String
  source_id : String
  field_name : String
  sample_value : Option String
  detected_count : Int
  status : String
  first_seen : Int
  last_seen : Int

/-- A queued `process_lead_task.delay(...)` work item. -/
structure QueuedTask where
  payload : Payload
  source_id : String
  vendor_id : String
  owner_id : String
  tenant_id : String

/-- `CampaignConfig` from `app/models/campaign.py` (fields the engine
reads). -/
structure CampaignConfig where
  priority : Int
  status : String
  monday_cap : Option Int
  tuesday_cap : Option Int
  wednesday_cap : Option Int
  thursday_cap : Option Int
  friday_cap : Option Int
  saturday_cap : Option Int
  sunday_cap : Option Int
  all_day : Bool
  start_time : Option String
  end_time : Option String
  campaign_max : Option Int
  hourly_cap : Option Int

/-- `Campaign` from `app/models/campaign.py` (fields the engine reads). -/
structure Campaign where
  id : Nat
  tenant_id : String
  name : String
  destination_id : String
  source_ids : List String
  config : CampaignConfig
  rules : SourceRules
  mapping : SourceMapping

/-- `Customer` from `app/models/customer.py` (fields the engine reads;
the linked campaign ids are kept as parsed object ids). -/
structure Customer where
  id : String
  name : String
  tenant_id : String
  status : String
  campaigns : List Nat

/-- `DestinationConfig` from `app/models/destination.py`, limited to the
fields the engine reads.  Note the class declares **no** `content_type`
attribute (declared fields: `url, method, headers, auth_type,
auth_credentials, timeout, api_key`); reading it raises `AttributeError`,
which `configContentType` models. -/
structure DestinationConfig where
  url : String
  method : String
  headers : List (String × String)
  auth_type : String
  auth_credentials : List (String × String)
  timeout : Int

/-- The attribute access `config.content_type` performed by
`RoutingEngine.deliver_to_campaign` and `DeliveryEngine.dispatch` for
non-GET requests.  `DestinationConfig` declares no such field, so the
access raises `AttributeError` (inside the delivery `try`, which converts
it into a failed delivery). -/
def configContentType (_ : DestinationConfig) : Except String String :=
  .error "AttributeError: DestinationConfig object has no attribute content_type"

/-- `Destination` from `app/models/destination.py` (fields the engine
reads). -/
structure Destination where
  id : String
  name : String
  enabled : Bool
  approval_status : String
  config : DestinationConfig

/-- The wall clock as the engine samples it: `datetime.now()` /
`datetime.utcnow()` as seconds (`t`), `strftime("%H:%M")` (`timeStr`),
`strftime("%A").lower()` (`weekday`), and the derived start of the local
day and hour used by the cap queries. -/
structure ClockInfo where
  t : Int
  timeStr : String
  weekday : String
  dayStart : Int
  hourStart : Int

/-- The externally stored world: the document collections, the queued
Celery work items, and the clock. -/
structure World where
  system_fields : List SystemField
  vendors : List Vendor
  unknown_fields : List UnknownField
  leads : List Lead
  customers : List Customer
  campaigns : List Campaign
  destinations : List Destination
  queue : List QueuedTask
  next_id : Nat
  clock : ClockInfo

/-! ## Unknown-field tracking (`UnknownFieldService.track_unknown_field`) -/

/-- The sample-history update of `track_unknown_field`: falsy samples are
skipped, the stored history string is split on `", "`, the sample is
appended only if distinct, the list is trimmed to its last (newest) 5
entries, and re-joined. -/
def updateSampleHistory (old : Option String) (sample_str : Option String) : Option String :=
  match sample_str with
  | none => old
  | some s =>
      if s == "" then old
      else
        let current : List String :=
          match old with
          | none => []
          | some o => if o == "" then [] else pySplit o ", "
        if current.contains s then old
        else
          let appended := current ++ [s]
          let trimmed := if appended.length > 5 then appended.drop (appended.length - 5) else appended
          some (joinSep ", " trimmed)

/-- The body of `track_unknown_field` acting on the `unknown_fields`
collection: `find_one` by `(field_name, tenant_id)` picks the first
matching document; an `ignored` document is returned untouched (early
return), an existing one gets count/`last_seen`/samples updated, and a
missing one is inserted with `detected_count = 1`. -/
def trackGo (source_id field_name : String) (sample_str : Option String) (owner_id tenant_id : String) (now : Int) : List UnknownField → List UnknownField
  | [] => [⟨tenant_id, owner_id, source_id, field_name, sample_str, 1, "unmapped", now, now⟩]
  | u :: rest =>
      if u.field_name == field_name && u.tenant_id == tenant_id then
        (if u.status == "ignored" then u
         else { u with detected_count := u.detected_count + 1,
                       last_seen := now,
                       sample_value := updateSampleHistory u.sample_value sample_str }) :: rest
      else u :: trackGo source_id field_name sample_str owner_id tenant_id now rest

/-- `UnknownFieldService.track_unknown_field` (`sample_str = str(value)`
unless the value is `None`). -/
def track_unknown_field (db : List UnknownField) (source_id field_name : String) (sample_value : Val) (owner_id tenant_id : String) (now : Int) : List UnknownField :=
  let sample_str : Option String :=
    match sample_value with
    | .null => none
    | v => some (valToString v)
  trackGo source_id field_name sample_str owner_id tenant_id now db

/-! ## Alias resolution and mapping (`ProcessingEngine.apply_mapping`) -/

/-- One entry of the `alias_map` dictionary built by `apply_mapping`. -/
structure AliasMatch where
  target_key : String
  scope : String
  owner_id : Option String
  vendor_id : Option String
  source_id : Option String
deriving DecidableEq

/-- The `alias_map[norm]` bucket: walking the tenant's system fields in
collection order and their alias lists in declaration order, keeping the
entries whose normalized alias equals `norm`. -/
def aliasMatchesFor (sfs : List SystemField) (norm : String) : List AliasMatch :=
  sfs.flatMap (fun sf =>
    (sf.aliases.filter (fun a => a.alias_normalized == norm)).map
      (fun a => ⟨sf.field_key, a.scope, a.owner_id, a.vendor_id, a.source_id⟩))

/-- The three sequential probe loops of `apply_mapping`: first an exact
source-scoped match, then an exact vendor-scoped match, then a
global-or-owner match; within each loop the first hit wins. -/
def resolveAlias (ms : List AliasMatch) (source_id : String) (vendor_id : Option String) (owner_id : String) : Option String :=
  match ms.find? (fun m => m.scope == "source" && m.source_id == some source_id) with
  | some m => some m.target_key
  | none =>
    match ms.find? (fun m => m.scope == "vendor" && m.vendor_id == vendor_id) with
    | some m => some m.target_key
    | none =>
      match ms.find? (fun m => m.scope == "global" || m.owner_id == some owner_id) with
      | some m => some m.target_key
      | none => none

/-- The source-list update inside `persist_rule`: locate the first source
with the given id and append a rule for `src_field` unless one already
exists (the existence check that makes persistence idempotent). -/
def addRuleToSource (s_id src_field : String) (tgt : Option String) : List Source → List Source
  | [] => []
  | s :: rest =>
      if s.id == s_id then
        (if s.mapping.rules.any (fun r => r.source_field == src_field) then s
         else { s with mapping := ⟨s.mapping.rules ++ [⟨src_field, tgt, none, false, false⟩]⟩ }) :: rest
      else s :: addRuleToSource s_id src_field tgt rest

/-- The nested `persist_rule` helper of `apply_mapping`:
`Vendor.find_one({"sources.id": s_id, "owner_id": o_id})` picks the first
matching vendor document, whose matching source gets the rule. -/
def persist_rule (vendors : List Vendor) (s_id src_field : String) (tgt : Option String) (o_id : String) : List Vendor :=
  match vendors with
  | [] => []
  | v :: vs =>
      if v.owner_id == o_id && v.sources.any (fun s => s.id == s_id) then
        { v with sources := addRuleToSource s_id src_field tgt v.sources } :: vs
      else v :: persist_rule vs s_id src_field tgt o_id

/-- The mutable state of the `auto_discover` loop of `apply_mapping`:
the vendor collection (mapping-rule persistence), the unknown-field
collection, the result dict, and the `mapped_source_fields` set. -/
structure DiscoverAcc where
  vendors : List Vendor
  unknown_fields : List UnknownField
  result : Payload
  mapped : List String

/-- One iteration of the `for key, value in payload.items()` discovery
loop of `apply_mapping`: canonical keys pass through (with a one-time
implicit identity rule), keys with an existing rule are skipped, and the
rest are resolved through the alias index or recorded as unknown. -/
def discoverStep (sfs : List SystemField) (source_id owner_id tenant_id : String) (vendor_id : Option String) (now : Int) (acc : DiscoverAcc) (kv : String × Val) : DiscoverAcc :=
  let key := kv.1
  let value := kv.2
  if sfs.any (fun f => f.field_key == key) then
    let acc := { acc with result := dictInsert acc.result key value }
    if acc.mapped.contains key then acc
    else { acc with vendors := persist_rule acc.vendors source_id key (some key) owner_id,
                    mapped := acc.mapped ++ [key] }
  else if acc.mapped.contains key then acc
  else
    let norm_key := normalize_alias key
    let ms := aliasMatchesFor sfs norm_key
    match resolveAlias ms source_id vendor_id owner_id with
    | some target =>
        { acc with result := dictInsert acc.result target value,
                   vendors := persist_rule acc.vendors source_id key (some target) owner_id,
                   mapped := acc.mapped ++ [key] }
    | none =>
        { acc with vendors := persist_rule acc.vendors source_id key none owner_id,
                   mapped := acc.mapped ++ [key],
                   unknown_fields := track_unknown_field acc.unknown_fields source_id key value owner_id tenant_id now }

/-- One iteration of the declared-rules loop of `apply_mapping`: exact
key lookup, then the separator/case-insensitive smart fallback (the
normalized-payload dictionary is built with later keys overwriting, so
the last matching key wins), then the default value; the value is written
only when resolved and the rule has a truthy target.  A stored Python
`None` behaves like a missing value here. -/
def applyRuleStep (payload : Payload) (result : Payload) (rule : MappingRule) : Payload :=
  let v0 : Option Val :=
    match dictGet payload rule.source_field with
    | some .null => none
    | o => o
  let v1 : Option Val :=
    match v0 with
    | some v => some v
    | none =>
        match payload.reverse.find? (fun kv => smartNorm kv.1 == smartNorm rule.source_field) with
        | some kv => (match kv.2 with | .null => none | v => some v)
        | none => none
  let v2 : Option Val :=
    match v1 with
    | some v => some v
    | none => if optStrTruthy rule.default_value then some (.str (rule.default_value.getD "")) else none
  match v2, rule.target_field with
  | some v, some t => if !(t == "") then dictInsert result t v else result
  | _, _ => result

/-- `ProcessingEngine.apply_mapping`: the discovery loop (only with
`auto_discover`) over the tenant's system fields, followed by the
declared-rules loop; returns the updated stored state and the mapped
dict. -/
def apply_mapping (w : World) (payload : Payload) (mapping : SourceMapping) (source_id owner_id tenant_id : String) (vendor_id : Option String) (auto_discover : Bool) : World × Payload :=
  let sfs := w.system_fields.filter (fun f => f.tenant_id == tenant_id)
  let acc0 : DiscoverAcc := ⟨w.vendors, w.unknown_fields, [], mapping.rules.map (fun r => r.source_field)⟩
  let acc := if auto_discover then
      payload.foldl (discoverStep sfs source_id owner_id tenant_id vendor_id w.clock.t) acc0
    else acc0
  let result := mapping.rules.foldl (applyRuleStep payload) acc.result
  ({ w with vendors := acc.vendors, unknown_fields := acc.unknown_fields }, result)

/-! ## Duplicate detection (`ProcessingEngine.check_duplicate`) -/

/-- Seconds in a day (`timedelta(days=1)`). -/
def secondsPerDay : Int := 86400

/-- Mongo equality of `data.field` against a (truthy, hence non-null)
query value: the lead must carry the field with an equal value. -/
def leadFieldEq (l : Lead) (f : String) (v : Val) : Bool :=
  match dictGet l.data f with
  | some v2 => v2 == v
  | none => false

/-- The effective dedupe field list of `check_duplicate`:
`source.config.dupe_fields or ["email"]` (an empty configured list is
falsy and falls back to the single field `email`). -/
def fieldsToCheck (source : Source) : List String :=
  if source.config.dupe_fields.isEmpty then ["email"] else source.config.dupe_fields

/-- The `query_conditions` list of `check_duplicate`: one equality
condition per effective field whose payload value is truthy. -/
def dupeConditions (payload : Payload) (source : Source) : List (String × Val) :=
  (fieldsToCheck source).filterMap (fun f =>
    match dictGet payload f with
    | some v => if truthy v then some (f, v) else none
    | none => none)

/-- The effective operator of `check_duplicate`:
`source.config.dupe_field_operator or "or"` (the empty string is falsy). -/
def effOperator (source : Source) : String :=
  if source.config.dupe_field_operator == "" then "or" else source.config.dupe_field_operator

/-- The document predicate denoted by the Mongo query that
`check_duplicate` issues: the field conditions combined by `$or`/`$and`,
same `source_id`, and — only when `dupe_check_days > 0` —
`created_at ≥ now - days`. -/
def dupeQueryMatch (payload : Payload) (source : Source) (now : Int) (l : Lead) : Bool :=
  let conds := dupeConditions payload source
  let condMatch :=
    if effOperator source == "or" then conds.any (fun fv => leadFieldEq l fv.1 fv.2)
    else conds.all (fun fv => leadFieldEq l fv.1 fv.2)
  let windowOk :=
    if source.config.dupe_check_days > 0 then
      decide (now - source.config.dupe_check_days * secondsPerDay ≤ l.created_at)
    else true
  condMatch && l.source_id == source.id && windowOk

/-- `ProcessingEngine.check_duplicate`. -/
def check_duplicate (leads : List Lead) (now : Int) (payload : Payload) (source : Source) : Option String :=
  if !source.config.dupe_check then none
  else if (dupeConditions payload source).isEmpty then none
  else
    match leads.find? (dupeQueryMatch payload source now) with
    | some _ =>
        some (if source.config.dupe_check_days > 0 then
                "Duplicate lead found within " ++ toString source.config.dupe_check_days ++ " days"
              else "Duplicate lead found")
    | none => none

/-! ## The ingestion pipeline (`ProcessingEngine.process_record`) -/

/-- Steps 4 and 5 of `process_record`: source-rule filtering of a record
not already rejected, the `language` key sanitization of both dicts, the
`Lead` insert (with the generated human-readable `lead_id`), and the
`_lead_id`/`lead_id` additions to the returned dict. -/
def finishRecord (re_search : ReOracle) (w : World) (normalized0 : Payload) (payload : Payload) (source : Source) (owner_id tenant_id : String) (vendor_id : Option String) : World × Payload :=
  let normalized1 :=
    if !(optTruthy (dictGet normalized0 "_rejected")) then
      if !(evaluate_rules re_search normalized0 source.rules) then
        dictInsert (dictInsert normalized0 "_rejected" (.bool true)) "_rejection_reason" (.str "Source rules failed")
      else normalized0
    else normalized0
  let status := if optTruthy (dictGet normalized1 "_rejected") then "rejected" else "processed"
  let rejection_reason : Option String :=
    if optTruthy (dictGet normalized1 "_rejected") then
      match dictGet normalized1 "_rejection_reason" with
      | some (.str s) => some s
      | some v => some (valToString v)
      | none => none
    else none
  let normalized2 :=
    if dictHas normalized1 "language" then
      dictInsert (dictRemove normalized1 "language") "source_language" ((dictGet normalized1 "language").getD .null)
    else normalized1
  let final_payload :=
    if dictHas payload "language" then
      dictInsert (dictRemove payload "language") "source_language" ((dictGet payload "language").getD .null)
    else payload
  let idStr := toString w.next_id
  let lead_id := "LD-" ++ strUpper (String.mk (idStr.data.drop (idStr.data.length - 6)))
  let lead : Lead :=
    ⟨w.next_id, tenant_id, owner_id, vendor_id.getD "unknown", source.id, some lead_id,
     normalized2, final_payload, status, rejection_reason, [], w.clock.t⟩
  let out := dictInsert (dictInsert normalized2 "_lead_id" (.str idStr)) "lead_id" (.str lead_id)
  ({ w with leads := w.leads ++ [lead], next_id := w.next_id + 1 }, out)

/-- `ProcessingEngine.process_record`: mapping, normalization, duplicate
check, the duplicate-redirect branch, rule filtering, persistence.  The
duplicate branch begins by reading
`source.config.duplicate_redirect_source_id`, an attribute `SourceConfig`
does not declare, so that branch raises (`Except.error`) before any
rejection is recorded. -/
def process_record (re_search : ReOracle) (w : World) (payload : Payload) (source : Source) (owner_id tenant_id : String) (vendor_id : Option String) : Except String (World × Payload) :=
  let m := apply_mapping w payload source.mapping source.id owner_id tenant_id vendor_id true
  let w1 := m.1
  let normalized0 := apply_normalization m.2 source.normalization
  match check_duplicate w1.leads w1.clock.t normalized0 source with
  | some dupe_error0 =>
      (configDuplicateRedirectSourceId source.config).bind (fun redirect_id =>
        let history : List Val :=
          match dictGet payload "_redirect_history" with
          | some (.list l) => l
          | _ => []
        let step : World × String :=
          match redirect_id with
          | some rid =>
              if !(rid == "") &&
                 !(history.contains (.str rid)) && !(history.contains (.str source.id)) then
                let new_payload :=
                  dictInsert (dictInsert payload "_redirect_history" (.list (history ++ [.str source.id])))
                    "_diverted_from" (.str source.id)
                ({ w1 with queue := w1.queue ++ [⟨new_payload, rid, vendor_id.getD "unknown", owner_id, tenant_id⟩] },
                 "Duplicate - Diverted to " ++ rid)
              else (w1, dupe_error0)
          | none => (w1, dupe_error0)
        let rejected :=
          dictInsert (dictInsert normalized0 "_rejected" (.bool true)) "_rejection_reason" (.str step.2)
        .ok (finishRecord re_search step.1 rejected payload source owner_id tenant_id vendor_id))
  | none =>
      .ok (finishRecord re_search w1 normalized0 payload source owner_id tenant_id vendor_id)

/-! ## Routing engine (`app/services/routing_engine.py`) and delivery
dispatcher (`app/services/delivery_engine.py`) -/

/-- An outbound HTTP response as the `httpx` client returns it. -/
structure HttpResponse where
  status_code : Nat
  text : String

/-- An outbound HTTP request as the engine assembles it.  `bodyKind`
records how the payload travels: query `params` (GET), `form` data or
`json` body. -/
structure HttpRequest where
  method : String
  url : String
  headers : List (String × String)
  bodyKind : String
  body : Payload
  timeout : Int
  auth : Option (String × String)

/-- The outbound HTTP client as an oracle: a transport error or timeout
is `Except.error` (the raised exception's text), a received response is
`Except.ok`. -/
abbrev HttpOracle := HttpRequest → Except String HttpResponse

/-- A BSON query value as it appears in the cap-count `$match` documents:
an `ObjectId`, a string, a datetime, or a nested document. -/
inductive MValue where
  | oid (n : Nat)
  | str (s : String)
  | time (t : Int)
  | doc (fields : List (String × MValue))

/-- The `$match` document of the cap-count aggregation pipelines of
`check_caps_and_schedule`, translated literally: a top-level
`"$elemMatch"` key holding the element conditions, next to `tenant_id`. -/
def capMatchDoc (campaign_id : Nat) (tenant_id : String) (since : Option Int) : List (String × MValue) :=
  [("$elemMatch", .doc ([("campaign_id", .oid campaign_id), ("status", .str "delivered")] ++
      (match since with
       | some t => [("delivered_at", .doc [("$gte", .time t)])]
       | none => []))),
   ("tenant_id", .str tenant_id)]

/-- Modelled from the external datastore's documented query language
(MongoDB): the operators admitted at the top level of a query document.
`$elemMatch` is **not** among them — it is only valid under a field
path — so a `$match` whose document carries a top-level `"$elemMatch"`
key fails with an unknown-top-level-operator error. -/
def mongoTopLevelOps : List String :=
  ["$and", "$or", "$nor", "$expr", "$text", "$where", "$comment", "$jsonSchema"]

/-- Modelled from the external datastore's documented behaviour: direct
equality match of a top-level field of a `Lead` document (only
`tenant_id` is ever queried this way by the embedded pipelines). -/
def leadTopFieldMatches (l : Lead) (name : String) (v : MValue) : Bool :=
  if name == "tenant_id" then
    match v with
    | .str s => l.tenant_id == s
    | _ => false
  else false

/-- Modelled from the external datastore's documented behaviour: a
`[{"$match": q}, {"$count": ...}]` aggregation over the `leads`
collection.  A `$`-prefixed key that is not a recognised top-level
operator makes the server reject the query (an `OperationFailure`
exception at the driver); otherwise the matching documents are counted. -/
def aggCountLeads (db : List Lead) (q : List (String × MValue)) : Except String Nat :=
  if q.any (fun kv => listStarts kv.1.data "$".data && !(mongoTopLevelOps.contains kv.1)) then
    .error "OperationFailure: unknown top level operator"
  else
    .ok (db.countP (fun l => q.all (fun kv => leadTopFieldMatches l kv.1 kv.2)))

/-- `getattr(config, f"{weekday}_cap", None)`. -/
def weekdayCap (config : CampaignConfig) (weekday : String) : Option Int :=
  if weekday == "monday" then config.monday_cap
  else if weekday == "tuesday" then config.tuesday_cap
  else if weekday == "wednesday" then config.wednesday_cap
  else if weekday == "thursday" then config.thursday_cap
  else if weekday == "friday" then config.friday_cap
  else if weekday == "saturday" then config.saturday_cap
  else if weekday == "sunday" then config.sunday_cap
  else none

/-- `RoutingEngine.check_caps_and_schedule`: the time-of-day window
(lexical HH:MM comparison), then the per-weekday cap, the hourly cap and
the lifetime cap, each counting through `aggCountLeads` and rejecting at
`count ≥ cap`; a raised count query propagates as `Except.error`. -/
def check_caps_and_schedule (w : World) (campaign : Campaign) (tenant_id : String) : Except String Bool := do
  let config := campaign.config
  let now := w.clock
  if !config.all_day then
    if optStrTruthy config.start_time && pyStrLt now.timeStr (config.start_time.getD "") then
      return false
    if optStrTruthy config.end_time && pyStrLt (config.end_time.getD "") now.timeStr then
      return false
  match weekdayCap config now.weekday with
  | some daily_cap =>
      let delivered_today ← aggCountLeads w.leads (capMatchDoc campaign.id tenant_id (some now.dayStart))
      if daily_cap ≤ (delivered_today : Int) then
        return false
  | none => pure ()
  match config.hourly_cap with
  | some hourly_cap =>
      let delivered_this_hour ← aggCountLeads w.leads (capMatchDoc campaign.id tenant_id (some now.hourStart))
      if hourly_cap ≤ (delivered_this_hour : Int) then
        return false
  | none => pure ()
  match config.campaign_max with
  | some campaign_max =>
      let total_delivered ← aggCountLeads w.leads (capMatchDoc campaign.id tenant_id none)
      if campaign_max ≤ (total_delivered : Int) then
        return false
  | none => pure ()
  return true

/-- The campaigns fetched for one customer by
`RoutingEngine.find_eligible_campaigns`: the customer's linked campaign
ids, filtered to enabled campaigns of the lead's tenant, in collection
order. -/
def campaignsForCustomer (w : World) (lead : Lead) (customer : Customer) : List Campaign :=
  if customer.campaigns.isEmpty then []
  else w.campaigns.filter (fun ca =>
    customer.campaigns.contains ca.id && ca.config.status == "enabled" && ca.tenant_id == lead.tenant_id)

/-- The candidate (customer, campaign) pairs in discovery order: enabled
customers of the lead's tenant in collection order, each paired with its
fetched campaigns. -/
def candidatePairs (w : World) (lead : Lead) : List (Customer × Campaign) :=
  (w.customers.filter (fun cu => cu.tenant_id == lead.tenant_id && cu.status == "enabled")).flatMap
    (fun cu => (campaignsForCustomer w lead cu).map (fun ca => (cu, ca)))

/-- The per-candidate gates of `find_eligible_campaigns`, in source
order: source-id allow-list, capacity/schedule gate, rule tree. -/
def gateCandidate (re_search : ReOracle) (w : World) (lead : Lead) (cc : Customer × Campaign) : Except String Bool := do
  let campaign := cc.2
  if !campaign.source_ids.isEmpty && !(campaign.source_ids.contains lead.source_id) then
    return false
  let is_available ← check_caps_and_schedule w campaign lead.tenant_id
  if !is_available then
    return false
  return evaluate_rules re_search lead.data campaign.rules

/-- The accumulation loop of `find_eligible_campaigns`: an exception
raised while gating a candidate is caught by the surrounding
`try/except`, which returns the candidates accumulated so far. -/
def findEligibleGo (re_search : ReOracle) (w : World) (lead : Lead) : List (Customer × Campaign) → List (Customer × Campaign) → List (Customer × Campaign)
  | [], acc => acc
  | cc :: rest, acc =>
      match gateCandidate re_search w lead cc with
      | .error _ => acc
      | .ok true => findEligibleGo re_search w lead rest (acc ++ [cc])
      | .ok false => findEligibleGo re_search w lead rest acc

/-- `RoutingEngine.find_eligible_campaigns`. -/
def find_eligible_campaigns (re_search : ReOracle) (w : World) (lead : Lead) : List (Customer × Campaign) :=
  findEligibleGo re_search w lead (candidatePairs w lead) []

/-- Descending-priority order on eligible pairs (`a` may stay before
`b`). -/
def priorityGe (a b : Customer × Campaign) : Prop :=
  b.2.config.priority ≤ a.2.config.priority

instance : DecidableRel priorityGe :=
  fun a b => inferInstanceAs (Decidable (b.2.config.priority ≤ a.2.config.priority))

/-- `eligible_campaigns.sort(key=priority, reverse=True)`: Python's
stable sort, modelled as a stable insertion sort with the
descending-priority order. -/
def sortEligible (l : List (Customer × Campaign)) : List (Customer × Campaign) :=
  List.insertionSort priorityGe l

/-- Header-dict assignment `headers["Authorization"] = ...`. -/
def setHeader (hs : List (String × String)) (k v : String) : List (String × String) :=
  if hs.any (fun kv => kv.1 == k) then hs.map (fun kv => if kv.1 == k then (k, v) else kv)
  else hs ++ [(k, v)]

/-- `auth_credentials.get(k)` / `k in auth_credentials`. -/
def lookupCred (creds : List (String × String)) (k : String) : Option String :=
  (creds.find? (fun kv => kv.1 == k)).map (·.2)

/-- `response.is_success`: `raise_for_status()` raises for every status
outside the 2xx range. -/
def isSuccessStatus (code : Nat) : Bool :=
  decide (200 ≤ code) && decide (code < 300)

/-- The request assembly of `deliver_to_campaign`, inside its `try`: GET
sends the payload as query params; otherwise `config.content_type` is
read — an attribute `DestinationConfig` does not declare, so that read
raises — then bearer/basic auth is applied. -/
def buildDeliveryRequest (config : DestinationConfig) (outbound : Payload) : Except String HttpRequest := do
  let kind ←
    if config.method == "GET" then pure "params"
    else do
      let ct ← configContentType config
      pure (if ct == "form" then "form" else "json")
  let headers :=
    if config.auth_type == "bearer" && (lookupCred config.auth_credentials "token").isSome then
      setHeader config.headers "Authorization"
        ("Bearer " ++ (lookupCred config.auth_credentials "token").getD "")
    else config.headers
  let auth :=
    if config.auth_type == "basic" && (lookupCred config.auth_credentials "username").isSome then
      some ((lookupCred config.auth_credentials "username").getD "",
            (lookupCred config.auth_credentials "password").getD "")
    else none
  pure ⟨config.method, config.url, headers, kind, outbound, config.timeout, auth⟩

/-- `RoutingEngine.deliver_to_campaign`: destination fetch and
enabled/approved gates (skip silently), outbound mapping with
`auto_discover=False`, static-field injection, the HTTP call whose every
failure (transport error, timeout, non-2xx via `raise_for_status`, or a
raised attribute access) is caught and converted into a `failed` result,
the result append, and the lead save. -/
def deliver_to_campaign (http : HttpOracle) (w : World) (lead : Lead) (customer : Customer) (campaign : Campaign) : World × Lead :=
  match w.destinations.find? (fun d => d.id == campaign.destination_id) with
  | none => (w, lead)
  | some destination =>
    if !destination.enabled then (w, lead)
    else if !(destination.approval_status == "approved") then (w, lead)
    else
      let outbound0 := (apply_mapping w lead.data campaign.mapping "routing" lead.owner_id lead.tenant_id none false).2
      let outbound := campaign.mapping.rules.foldl (fun acc rule =>
          if rule.is_static && optStrTruthy rule.target_field && optStrTruthy rule.default_value then
            dictInsert acc (rule.target_field.getD "") (.str (rule.default_value.getD ""))
          else acc) outbound0
      let attempt : String × Option String :=
        match (buildDeliveryRequest destination.config outbound).bind http with
        | .ok resp =>
            if isSuccessStatus resp.status_code then ("delivered", none)
            else ("failed", some ("HTTP status error " ++ toString resp.status_code ++ " for url " ++ destination.config.url))
        | .error e => ("failed", some e)
      let result : RoutingResult :=
        ⟨customer.id, some customer.name, toString campaign.id, some campaign.name,
         some destination.id, some destination.name, attempt.1, w.clock.t, attempt.2⟩
      let lead2 := { lead with routing_results := lead.routing_results ++ [result] }
      ({ w with leads := w.leads.map (fun l => if l.id == lead2.id then lead2 else l) }, lead2)

/-- The `for customer, campaign in eligible_campaigns` dispatch loop of
`execute_routing`, carrying the in-memory lead whose result list
accumulates across iterations. -/
def routeFold (http : HttpOracle) : List (Customer × Campaign) → World × Lead → World × Lead
  | [], wl => wl
  | cc :: rest, wl => routeFold http rest (deliver_to_campaign http wl.1 wl.2 cc.1 cc.2)

/-- `RoutingEngine.execute_routing`: fetch the lead, require status
`processed`, find the eligible campaigns, sort by descending priority,
and deliver to every one of them in order. -/
def execute_routing (re_search : ReOracle) (http : HttpOracle) (w : World) (lead_id : Nat) : World :=
  match w.leads.find? (fun l => l.id == lead_id) with
  | none => w
  | some lead =>
      if !(lead.status == "processed") then w
      else
        let eligible := find_eligible_campaigns re_search w lead
        let sorted := sortEligible eligible
        (routeFold http sorted (w, lead)).1

/-- The result dictionary of `DeliveryEngine.dispatch`. -/
structure DispatchResult where
  status : String
  code : Option Nat
  response : Option String
  error : Option String

/-- `DeliveryEngine.dispatch`: bearer auth baked into the headers, then
a `try` around body assembly (which reads the undeclared
`config.content_type` attribute), the method dispatch (unsupported
methods raise `ValueError`), the call, and `raise_for_status`; every
exception is caught and returned as a `failed` result with the error
text. -/
def dispatch (http : HttpOracle) (payload : Payload) (destination : Destination) : DispatchResult :=
  let config := destination.config
  let method := strUpper config.method
  let headers :=
    if config.auth_type == "bearer" && (lookupCred config.auth_credentials "token").isSome then
      setHeader config.headers "Authorization"
        ("Bearer " ++ (lookupCred config.auth_credentials "token").getD "")
    else config.headers
  let attempt : Except String HttpResponse := do
    let ct ← configContentType config
    let kind := if ct == "form" then "form" else "json"
    let resp ←
      if method == "POST" then http ⟨"POST", config.url, headers, kind, payload, config.timeout, none⟩
      else if method == "GET" then http ⟨"GET", config.url, headers, "params", payload, config.timeout, none⟩
      else if method == "PUT" then http ⟨"PUT", config.url, headers, kind, payload, config.timeout, none⟩
      else .error ("Unsupported method " ++ method)
    if isSuccessStatus resp.status_code then pure resp
    else .error ("HTTP status error " ++ toString resp.status_code)
  match attempt with
  | .ok resp => ⟨"success", some resp.status_code, some resp.text, none⟩
  | .error e => ⟨"failed", none, none, some e⟩

/-- Proof view of one `apply_normalization` operation applied to a
value (the `lowercase`/`uppercase` branches of `applyNormRule`, other
operations being no-ops). -/
def normOpApply (op : String) (v : Val) : Val :=
  if op == "lowercase" then .str (strLower (valToString v))
  else if op == "uppercase" then .str (strUpper (valToString v))
  else v

/-- The operations a normalization rule list applies to one field, in
order. -/
def normOpsFor (k : String) (rules : List NormalizationRule) : List String :=
  (rules.filter (fun r => r.field == k)).map (fun r => r.operation)

/-- The composite effect of a list of operations on one value. -/
def chainApply (ops : List String) (v : Val) : Val :=
  ops.foldl (fun acc op => normOpApply op acc) v

/-- Proof view of the outbound payload `deliver_to_campaign` builds for
one campaign: the declared-rules mapping pass (with `auto_discover`
disabled the state plays no part) followed by static-field injection. -/
def outboundFor (data : Payload) (campaign : Campaign) : Payload :=
  campaign.mapping.rules.foldl (fun acc rule =>
    if rule.is_static && optStrTruthy rule.target_field && optStrTruthy rule.default_value then
      dictInsert acc (rule.target_field.getD "") (.str (rule.default_value.getD ""))
    else acc) (campaign.mapping.rules.foldl (applyRuleStep data) [])

/-- Proof view of one delivery attempt: the result `deliver_to_campaign`
appends for a (customer, campaign) pair, `none` when the destination
gates skip.  It depends only on the destination catalog, the clock, the
lead's canonical data and the pair itself — not on other targets. -/
def attemptFor (http : HttpOracle) (dests : List Destination) (now : Int) (data : Payload)
    (cc : Customer × Campaign) : Option RoutingResult :=
  match dests.find? (fun d => d.id == cc.2.destination_id) with
  | none => none
  | some destination =>
    if !destination.enabled then none
    else if !(destination.approval_status == "approved") then none
    else
      let outbound := outboundFor data cc.2
      let attempt : String × Option String :=
        match (buildDeliveryRequest destination.config outbound).bind http with
        | .ok resp =>
            if isSuccessStatus resp.status_code then ("delivered", none)
            else ("failed", some ("HTTP status error " ++ toString resp.status_code ++
                    " for url " ++ destination.config.url))
        | .error e => ("failed", some e)
      some ⟨cc.1.id, some cc.1.name, toString cc.2.id, some cc.2.name,
            some destination.id, some destination.name, attempt.1, now, attempt.2⟩

/-! ## Theorems -/

section Claims

/-- Helper: a successful `find?` gives a member satisfying the
predicate. -/
theorem find_some_spec {α : Type} {p : α → Bool} {l : List α} {a : α}
    (h : l.find? p = some a) : a ∈ l ∧ p a = true :=
  ⟨List.mem_of_find?_eq_some h, List.find?_some h⟩

/-- C1.  For a payload key reached by the discovery loop of
`apply_mapping` that is neither a canonical field key nor already covered
by a mapping rule, alias resolution probes source-exact, then
vendor-exact, then global/owner scope, first hit winning: whenever the
bucket for the normalized key holds a source-scoped entry registered for
the payload's exact source, resolution returns the target of the first
such entry — a source-scoped one — and the discovery step maps the value
under that target, regardless of any vendor- or global-scoped entries in
the bucket. -/
theorem C1_alias_precedence
    (sfs : List SystemField) (source_id owner_id tenant_id : String)
    (vendor_id : Option String) (now : Int) (acc : DiscoverAcc) (key : String) (value : Val)
    (hkey : sfs.any (fun f => f.field_key == key) = false)
    (hmapped : key ∉ acc.mapped)
    (m : AliasMatch)
    (hm : m ∈ aliasMatchesFor sfs (normalize_alias key))
    (hscope : m.scope = "source") (hsid : m.source_id = some source_id) :
    ∃ m0, m0 ∈ aliasMatchesFor sfs (normalize_alias key) ∧
      m0.scope = "source" ∧ m0.source_id = some source_id ∧
      resolveAlias (aliasMatchesFor sfs (normalize_alias key)) source_id vendor_id owner_id =
        some m0.target_key ∧
      discoverStep sfs source_id owner_id tenant_id vendor_id now acc (key, value) =
        { acc with result := dictInsert acc.result m0.target_key value,
                   vendors := persist_rule acc.vendors source_id key (some m0.target_key) owner_id,
                   mapped := acc.mapped ++ [key] } := by
  have hpred : (fun mm : AliasMatch => mm.scope == "source" && mm.source_id == some source_id) m = true := by
    simp [hscope, hsid]
  have hsome : ((aliasMatchesFor sfs (normalize_alias key)).find?
      (fun mm => mm.scope == "source" && mm.source_id == some source_id)).isSome = true :=
    List.find?_isSome.mpr ⟨m, hm, hpred⟩
  obtain ⟨m0, hfind⟩ := Option.isSome_iff_exists.mp hsome
  obtain ⟨hm0mem, hm0p⟩ := find_some_spec hfind
  have hprops : m0.scope = "source" ∧ m0.source_id = some source_id := by
    constructor
    · have := (Bool.and_eq_true _ _).mp hm0p |>.1
      simpa using this
    · have := (Bool.and_eq_true _ _).mp hm0p |>.2
      simpa using this
  refine ⟨m0, hm0mem, hprops.1, hprops.2, ?_, ?_⟩
  · simp [resolveAlias, hfind]
  · simp [discoverStep, hkey, hmapped, resolveAlias, hfind]

/-- Witness for C1 at a concrete input: one system field registers a
global alias, one a vendor alias, one a source alias for the same
normalized token `phoneno`; resolution for the matching source yields the
source-scoped target. -/
theorem C1_witness :
    ∃ m0, m0 ∈ aliasMatchesFor
        [⟨"t", "o", "phone_global", [⟨"Phone_No", "phoneno", "global", "manual", some "o", none, none⟩]⟩,
         ⟨"t", "o", "phone_vendor", [⟨"Phone_No", "phoneno", "vendor", "manual", some "o", some "v1", none⟩]⟩,
         ⟨"t", "o", "phone_source", [⟨"Phone_No", "phoneno", "source", "manual", some "o", none, some "s1"⟩]⟩]
        (normalize_alias "Phone_No") ∧
      m0.scope = "source" ∧ m0.source_id = some "s1" ∧
      resolveAlias (aliasMatchesFor
        [⟨"t", "o", "phone_global", [⟨"Phone_No", "phoneno", "global", "manual", some "o", none, none⟩]⟩,
         ⟨"t", "o", "phone_vendor", [⟨"Phone_No", "phoneno", "vendor", "manual", some "o", some "v1", none⟩]⟩,
         ⟨"t", "o", "phone_source", [⟨"Phone_No", "phoneno", "source", "manual", some "o", none, some "s1"⟩]⟩]
        (normalize_alias "Phone_No")) "s1" (some "v1") "o" = some m0.target_key ∧
      discoverStep
        [⟨"t", "o", "phone_global", [⟨"Phone_No", "phoneno", "global", "manual", some "o", none, none⟩]⟩,
         ⟨"t", "o", "phone_vendor", [⟨"Phone_No", "phoneno", "vendor", "manual", some "o", some "v1", none⟩]⟩,
         ⟨"t", "o", "phone_source", [⟨"Phone_No", "phoneno", "source", "manual", some "o", none, some "s1"⟩]⟩]
        "s1" "o" "t" (some "v1") 0 ⟨[], [], [], []⟩ ("Phone_No", .str "555") =
        { vendors := [], unknown_fields := [],
          result := dictInsert [] m0.target_key (.str "555"),
          mapped := [] ++ ["Phone_No"] } :=
  C1_alias_precedence
    [⟨"t", "o", "phone_global", [⟨"Phone_No", "phoneno", "global", "manual", some "o", none, none⟩]⟩,
     ⟨"t", "o", "phone_vendor", [⟨"Phone_No", "phoneno", "vendor", "manual", some "o", some "v1", none⟩]⟩,
     ⟨"t", "o", "phone_source", [⟨"Phone_No", "phoneno", "source", "manual", some "o", none, some "s1"⟩]⟩]
    "s1" "o" "t" (some "v1") 0 ⟨[], [], [], []⟩ "Phone_No" (.str "555")
    (by decide) (by decide)
    ⟨"phone_source", "source", some "o", none, some "s1"⟩
    (by decide) rfl rfl

/-- C2.  Rule evaluation is total by construction — `evaluate_group` is a
total function into `Bool`, every fallible Python operation being caught
where the source catches it — and in particular: a numeric comparison
whose either operand fails `float(...)` coercion is `false`, a regex
condition whose pattern makes `re.search` raise is `false`, and an empty
group evaluates to `true`. -/
theorem C2_evaluator_total (re_search : ReOracle) :
    (∀ (payload : Payload) (node : RuleNode),
        evaluate_group re_search payload node = true ∨
        evaluate_group re_search payload node = false)
    ∧ (∀ (payload : Payload) (c : RuleCondition),
        (c.op = "gt" ∨ c.op = "lt" ∨ c.op = "gte" ∨ c.op = "lte") →
        (toNum ((dictGet payload c.field).getD .null) = none ∨ toNum c.value = none) →
        evaluate_condition re_search payload c = false)
    ∧ (∀ (payload : Payload) (c : RuleCondition),
        c.op = "regex" →
        re_search (valToString c.value) (valToString ((dictGet payload c.field).getD .null)) = none →
        evaluate_condition re_search payload c = false)
    ∧ (∀ (payload : Payload) (logic : String),
        evaluate_group re_search payload (.group logic []) = true) := by
  refine ⟨fun payload node => ?_, fun payload c hop hfail => ?_, fun payload c hop hre => ?_,
         fun payload logic => ?_⟩
  · cases h : evaluate_group re_search payload node
    · exact Or.inr rfl
    · exact Or.inl rfl
  · obtain ⟨f, op, v⟩ := c
    simp only [] at hop hfail
    rcases hop with h | h | h | h <;> subst h <;> rcases hfail with h2 | h2 <;>
      cases htv : toNum v <;> simp [evaluate_condition, h2, htv]
  · obtain ⟨f, op, v⟩ := c
    subst hop
    simp only [evaluate_condition] at *
    rw [hre]
    simp
  · simp [evaluate_group, evalChildren]

/-- Witness for C2 at concrete inputs: a `gt` comparison against a
non-numeric operand is `false`, an always-raising regex oracle makes a
regex condition `false`, and an empty `and` group is `true`. -/
theorem C2_witness :
    evaluate_condition (fun _ _ => none) [("age", .str "abc")] ⟨"age", "gt", .int 3⟩ = false ∧
    evaluate_condition (fun _ _ => none) [("age", .str "30")] ⟨"age", "regex", .str "("⟩ = false ∧
    evaluate_group (fun _ _ => none) [] (.group "and" []) = true :=
  ⟨(C2_evaluator_total (fun _ _ => none)).2.1 [("age", .str "abc")] ⟨"age", "gt", .int 3⟩
      (Or.inl rfl) (Or.inl (by decide)),
   (C2_evaluator_total (fun _ _ => none)).2.2.1 [("age", .str "30")] ⟨"age", "regex", .str "("⟩
      rfl rfl,
   (C2_evaluator_total (fun _ _ => none)).2.2.2 [] "and"⟩

/-- Helper: `check_duplicate` reports a duplicate exactly when dedupe is
enabled, some effective field carries a truthy value, and a stored lead
satisfies the issued query. -/
theorem check_duplicate_isSome_iff (leads : List Lead) (now : Int) (payload : Payload) (source : Source) :
    (check_duplicate leads now payload source).isSome = true ↔
      (source.config.dupe_check = true ∧ dupeConditions payload source ≠ [] ∧
       ∃ l ∈ leads, dupeQueryMatch payload source now l = true) := by
  unfold check_duplicate
  cases hdc : source.config.dupe_check
  · simp
  · by_cases hc : (dupeConditions payload source).isEmpty
    · have hnil : dupeConditions payload source = [] := by
        simpa [List.isEmpty_iff] using hc
      simp [hc, hnil]
    · have hne : dupeConditions payload source ≠ [] := by
        simpa [List.isEmpty_iff] using hc
      cases hfind : leads.find? (dupeQueryMatch payload source now)
      · have hnone := List.find?_eq_none.mp hfind
        simp [hc, hne]
        intro l hl
        simpa using hnone l hl
      · obtain ⟨hmem, hpred⟩ := find_some_spec hfind
        simp [hc, hfind, hne]
        exact ⟨_, hmem, hpred⟩

/-- Helper: the issued duplicate query, read semantically: same source,
the field conditions combined by the effective AND/OR operator, and the
trailing window applied only when `dupe_check_days > 0`. -/
theorem dupeQueryMatch_iff (payload : Payload) (source : Source) (now : Int) (l : Lead) :
    dupeQueryMatch payload source now l = true ↔
      (l.source_id = source.id ∧
       (effOperator source = "or" →
          ∃ fv ∈ dupeConditions payload source, leadFieldEq l fv.1 fv.2 = true) ∧
       (¬ effOperator source = "or" →
          ∀ fv ∈ dupeConditions payload source, leadFieldEq l fv.1 fv.2 = true) ∧
       (source.config.dupe_check_days > 0 →
          now - source.config.dupe_check_days * secondsPerDay ≤ l.created_at)) := by
  unfold dupeQueryMatch
  by_cases hop : effOperator source = "or" <;> by_cases hdays : source.config.dupe_check_days > 0 <;>
    simp [hop, hdays, Bool.and_eq_true, List.any_eq_true, List.all_eq_true, beq_iff_eq,
      decide_eq_true_eq] <;>
    aesop

/-- C3.  `check_duplicate` is skipped entirely when no effective dedupe
field carries a truthy value in the payload; otherwise it reports a
duplicate exactly when dedupe is enabled and some prior record of the
same source satisfies the field conditions combined by the effective
AND/OR operator, with the window applied as: `dupe_check_days = 0` puts
no bound on `created_at` (any historical match counts) while
`dupe_check_days = N > 0` requires `created_at ≥ now - N` days. -/
theorem C3_check_duplicate (leads : List Lead) (now : Int) (payload : Payload) (source : Source) :
    ((∀ f ∈ fieldsToCheck source, optTruthy (dictGet payload f) = false) →
        check_duplicate leads now payload source = none)
    ∧ ((check_duplicate leads now payload source).isSome = true ↔
        (source.config.dupe_check = true ∧ dupeConditions payload source ≠ [] ∧
         ∃ l ∈ leads, l.source_id = source.id ∧
           (effOperator source = "or" →
              ∃ fv ∈ dupeConditions payload source, leadFieldEq l fv.1 fv.2 = true) ∧
           (¬ effOperator source = "or" →
              ∀ fv ∈ dupeConditions payload source, leadFieldEq l fv.1 fv.2 = true) ∧
           (source.config.dupe_check_days > 0 →
              now - source.config.dupe_check_days * secondsPerDay ≤ l.created_at))) := by
  constructor
  · intro hfalsy
    have hnil : dupeConditions payload source = [] := by
      refine List.filterMap_eq_nil_iff.mpr (fun f hf => ?_)
      have hft := hfalsy f hf
      cases hget : dictGet payload f with
      | none => simp
      | some v =>
          have : truthy v = false := by simpa [optTruthy, hget] using hft
          simp [this]
    unfold check_duplicate
    cases hdc : source.config.dupe_check <;> simp [hnil]
  · rw [check_duplicate_isSome_iff]
    constructor
    · rintro ⟨h1, h2, l, hl, hq⟩
      exact ⟨h1, h2, l, hl, (dupeQueryMatch_iff payload source now l).mp hq⟩
    · rintro ⟨h1, h2, l, hl, hq⟩
      exact ⟨h1, h2, l, hl, (dupeQueryMatch_iff payload source now l).mpr hq⟩

/-- Witness for C3 at concrete inputs: with dedupe on `email`, a payload
whose `email` is empty skips the check, and a stored same-source record
with the same `email` makes the check report a duplicate. -/
theorem C3_witness :
    check_duplicate
      [⟨0, "t", "o", "v", "s1", none, [("email", .str "a@x.com")], [], "processed", none, [], 0⟩]
      0 [("email", .str "")]
      ⟨"s1", "S", ⟨"enabled", true, 0, ["email"], "or"⟩, ⟨[]⟩, ⟨[]⟩, ⟨none⟩⟩ = none ∧
    (check_duplicate
      [⟨0, "t", "o", "v", "s1", none, [("email", .str "a@x.com")], [], "processed", none, [], 0⟩]
      0 [("email", .str "a@x.com")]
      ⟨"s1", "S", ⟨"enabled", true, 0, ["email"], "or"⟩, ⟨[]⟩, ⟨[]⟩, ⟨none⟩⟩).isSome = true := by
  constructor
  · exact (C3_check_duplicate
      [⟨0, "t", "o", "v", "s1", none, [("email", .str "a@x.com")], [], "processed", none, [], 0⟩]
      0 [("email", .str "")]
      ⟨"s1", "S", ⟨"enabled", true, 0, ["email"], "or"⟩, ⟨[]⟩, ⟨[]⟩, ⟨none⟩⟩).1 (by decide)
  · refine (C3_check_duplicate
      [⟨0, "t", "o", "v", "s1", none, [("email", .str "a@x.com")], [], "processed", none, [], 0⟩]
      0 [("email", .str "a@x.com")]
      ⟨"s1", "S", ⟨"enabled", true, 0, ["email"], "or"⟩, ⟨[]⟩, ⟨[]⟩, ⟨none⟩⟩).2.mpr
      ⟨rfl, ?_,
       ⟨0, "t", "o", "v", "s1", none, [("email", .str "a@x.com")], [], "processed", none, [], 0⟩,
       List.Mem.head _, rfl, fun _ => ⟨("email", .str "a@x.com"), List.Mem.head _, rfl⟩,
       fun hne => absurd rfl hne, fun h => absurd h (by decide)⟩
    show [(("email" : String), Val.str "a@x.com")] ≠ []
    simp

/-- C10.  When dedupe is enabled but the configured field list is empty,
`check_duplicate` does not skip: it falls back to the single field
`email`, and a payload with a truthy `email` matching a prior record of
the same source is classified as a duplicate (window unbounded here,
`dupe_check_days = 0`). -/
theorem C10_empty_fields_email_fallback (leads : List Lead) (now : Int) (payload : Payload)
    (source : Source) (v : Val) (l : Lead)
    (hdc : source.config.dupe_check = true)
    (hfields : source.config.dupe_fields = [])
    (hdays : source.config.dupe_check_days = 0)
    (hget : dictGet payload "email" = some v)
    (htruthy : truthy v = true)
    (hl : l ∈ leads) (hsrc : l.source_id = source.id)
    (hmatch : leadFieldEq l "email" v = true) :
    check_duplicate leads now payload source = some "Duplicate lead found" := by
  have hftc : fieldsToCheck source = ["email"] := by
    simp [fieldsToCheck, hfields]
  have hconds : dupeConditions payload source = [("email", v)] := by
    simp [dupeConditions, hftc, hget, htruthy]
  have hpred : dupeQueryMatch payload source now l = true := by
    apply (dupeQueryMatch_iff payload source now l).mpr
    refine ⟨hsrc, fun _ => ⟨("email", v), by simp [hconds], hmatch⟩,
            fun _ => ?_, fun hpos => absurd hpos (by simp [hdays])⟩
    intro fv hfv
    have : fv = ("email", v) := by simpa [hconds] using hfv
    simpa [this] using hmatch
  have hsome : (leads.find? (dupeQueryMatch payload source now)).isSome = true :=
    List.find?_isSome.mpr ⟨l, hl, hpred⟩
  obtain ⟨x, hx⟩ := Option.isSome_iff_exists.mp hsome
  unfold check_duplicate
  simp [hdc, hconds, hx, hdays]

/-- Witness for C10 at a concrete input: dedupe enabled with an empty
field list, one stored record with the same `email` from the same
source. -/
theorem C10_witness :
    check_duplicate
      [⟨0, "t", "o", "v", "s1", none, [("email", .str "a@x.com")], [], "processed", none, [], 0⟩]
      7 [("email", .str "a@x.com"), ("name", .str "Bo")]
      ⟨"s1", "S", ⟨"enabled", true, 0, [], "or"⟩, ⟨[]⟩, ⟨[]⟩, ⟨none⟩⟩ =
      some "Duplicate lead found" :=
  C10_empty_fields_email_fallback
    [⟨0, "t", "o", "v", "s1", none, [("email", .str "a@x.com")], [], "processed", none, [], 0⟩]
    7 [("email", .str "a@x.com"), ("name", .str "Bo")]
    ⟨"s1", "S", ⟨"enabled", true, 0, [], "or"⟩, ⟨[]⟩, ⟨[]⟩, ⟨none⟩⟩
    (.str "a@x.com")
    ⟨0, "t", "o", "v", "s1", none, [("email", .str "a@x.com")], [], "processed", none, [], 0⟩
    rfl rfl rfl rfl rfl (List.Mem.head _) rfl rfl

/-- Helper: characters with equal code points are equal. -/
theorem charToNatInj {a b : Char} (h : a.toNat = b.toNat) : a = b :=
  Char.eq_of_val_eq (UInt32.ext h)

/-- Helper: code point of `Char.ofNatAux`. -/
theorem toNat_ofNatAux (n : Nat) (h : n.isValidChar) : (Char.ofNatAux n h).toNat = n := by
  simp [Char.ofNatAux, Char.toNat, UInt32.toNat]

/-- Helper: `lowerChar` on an ASCII uppercase letter. -/
theorem lowerChar_toNat_of (c : Char) (h : 65 ≤ c.toNat ∧ c.toNat ≤ 90) :
    (lowerChar c).toNat = c.toNat + 32 := by
  unfold lowerChar
  rw [dif_pos h]
  exact toNat_ofNatAux _ _

/-- Helper: `upperChar` on an ASCII lowercase letter. -/
theorem upperChar_toNat_of (c : Char) (h : 97 ≤ c.toNat ∧ c.toNat ≤ 122) :
    (upperChar c).toNat = c.toNat - 32 := by
  unfold upperChar
  rw [dif_pos h]
  exact toNat_ofNatAux _ _

/-- Helper: `lowerChar` fixes non-uppercase characters. -/
theorem lowerChar_eq_self (c : Char) (h : ¬(65 ≤ c.toNat ∧ c.toNat ≤ 90)) : lowerChar c = c :=
  dif_neg h

/-- Helper: `upperChar` fixes non-lowercase characters. -/
theorem upperChar_eq_self (c : Char) (h : ¬(97 ≤ c.toNat ∧ c.toNat ≤ 122)) : upperChar c = c :=
  dif_neg h

/-- Helper: lower-casing is idempotent per character. -/
theorem lowerChar_lowerChar (c : Char) : lowerChar (lowerChar c) = lowerChar c := by
  by_cases h : 65 ≤ c.toNat ∧ c.toNat ≤ 90
  · exact lowerChar_eq_self _ (by rw [lowerChar_toNat_of c h]; omega)
  · rw [lowerChar_eq_self c h]
    exact lowerChar_eq_self c h

/-- Helper: upper-casing is idempotent per character. -/
theorem upperChar_upperChar (c : Char) : upperChar (upperChar c) = upperChar c := by
  by_cases h : 97 ≤ c.toNat ∧ c.toNat ≤ 122
  · exact upperChar_eq_self _ (by rw [upperChar_toNat_of c h]; omega)
  · rw [upperChar_eq_self c h]
    exact upperChar_eq_self c h

/-- Helper: the outermost case operation wins per character. -/
theorem lowerChar_upperChar (c : Char) : lowerChar (upperChar c) = lowerChar c := by
  by_cases h : 97 ≤ c.toNat ∧ c.toNat ≤ 122
  · have h2 : 65 ≤ (upperChar c).toNat ∧ (upperChar c).toNat ≤ 90 := by
      rw [upperChar_toNat_of c h]; omega
    have hL : (lowerChar (upperChar c)).toNat = c.toNat := by
      rw [lowerChar_toNat_of _ h2, upperChar_toNat_of c h]; omega
    rw [lowerChar_eq_self c (by omega)]
    exact charToNatInj hL
  · rw [upperChar_eq_self c h]

/-- Helper: the outermost case operation wins per character. -/
theorem upperChar_lowerChar (c : Char) : upperChar (lowerChar c) = upperChar c := by
  by_cases h : 65 ≤ c.toNat ∧ c.toNat ≤ 90
  · have h2 : 97 ≤ (lowerChar c).toNat ∧ (lowerChar c).toNat ≤ 122 := by
      rw [lowerChar_toNat_of c h]; omega
    have hU : (upperChar (lowerChar c)).toNat = c.toNat := by
      rw [upperChar_toNat_of _ h2, lowerChar_toNat_of c h]; omega
    rw [upperChar_eq_self c (by omega)]
    exact charToNatInj hU
  · rw [lowerChar_eq_self c h]

/-- Helper: string-level composition collapse, all four combinations. -/
theorem strLower_strLower (s : String) : strLower (strLower s) = strLower s := by
  unfold strLower
  show String.mk ((s.data.map lowerChar).map lowerChar) = _
  rw [List.map_map]
  exact congrArg String.mk (List.map_congr_left (fun c _ => lowerChar_lowerChar c))

theorem strUpper_strUpper (s : String) : strUpper (strUpper s) = strUpper s := by
  unfold strUpper
  show String.mk ((s.data.map upperChar).map upperChar) = _
  rw [List.map_map]
  exact congrArg String.mk (List.map_congr_left (fun c _ => upperChar_upperChar c))

theorem strLower_strUpper (s : String) : strLower (strUpper s) = strLower s := by
  unfold strLower strUpper
  show String.mk ((s.data.map upperChar).map lowerChar) = _
  rw [List.map_map]
  exact congrArg String.mk (List.map_congr_left (fun c _ => lowerChar_upperChar c))

theorem strUpper_strLower (s : String) : strUpper (strLower s) = strUpper s := by
  unfold strLower strUpper
  show String.mk ((s.data.map lowerChar).map upperChar) = _
  rw [List.map_map]
  exact congrArg String.mk (List.map_congr_left (fun c _ => upperChar_lowerChar c))

/-- Helper: in a dict with distinct keys, lookup of a member's key
returns its value. -/
theorem dictGet_of_mem_nodup (p : Payload) (hnd : (p.map Prod.fst).Nodup)
    (kv : String × Val) (hm : kv ∈ p) : dictGet p kv.1 = some kv.2 := by
  induction p with
  | nil => cases hm
  | cons e rest ih =>
      rw [List.map_cons] at hnd
      have hnd2 := List.nodup_cons.mp hnd
      rcases List.mem_cons.mp hm with he | hrest
      · subst he
        simp [dictGet, List.find?]
      · have hne : (e.1 == kv.1) = false := by
          cases hb : (e.1 == kv.1)
          · rfl
          · have heq : e.1 = kv.1 := by simpa using hb
            have : kv.1 ∈ rest.map Prod.fst := List.mem_map.mpr ⟨kv, hrest, rfl⟩
            rw [← heq] at this
            exact absurd this hnd2.1
        have ihr := ih hnd2.2 hrest
        simpa [dictGet, List.find?, hne] using ihr

/-- Helper: one normalization rule acts as a per-entry map on a dict with
distinct keys. -/
theorem applyNormRule_eq_map (p : Payload) (hnd : (p.map Prod.fst).Nodup)
    (r : NormalizationRule) :
    applyNormRule p r =
      p.map (fun kv => if kv.1 == r.field then (kv.1, normOpApply r.operation kv.2) else kv) := by
  cases hget : dictGet p r.field with
  | none =>
      have hfalse : ∀ kv ∈ p, (kv.1 == r.field) = false := by
        intro kv hm
        cases hb : (kv.1 == r.field)
        · rfl
        · have : dictGet p kv.1 = some kv.2 := dictGet_of_mem_nodup p hnd kv hm
          rw [show kv.1 = r.field from by simpa using hb, hget] at this
          cases this
      have hmapid : p.map (fun kv : String × Val =>
          if kv.1 == r.field then (kv.1, normOpApply r.operation kv.2) else kv) = p := by
        calc p.map (fun kv : String × Val =>
              if kv.1 == r.field then (kv.1, normOpApply r.operation kv.2) else kv)
            = p.map (fun kv => kv) :=
              List.map_congr_left (fun kv hm => by simp [hfalse kv hm])
          _ = p := List.map_id' p
      rw [hmapid]
      simp [applyNormRule, hget]
  | some v =>
      have hhas : p.any (fun kv => kv.1 == r.field) = true := by
        unfold dictGet at hget
        cases hfind : p.find? (fun kv => kv.1 == r.field) with
        | none => rw [hfind] at hget; cases hget
        | some e =>
            obtain ⟨hmem, hpred⟩ := find_some_spec hfind
            exact List.any_eq_true.mpr ⟨e, hmem, hpred⟩
      have hval : ∀ kv ∈ p, (kv.1 == r.field) = true → kv.2 = v := by
        intro kv hm hbeq
        have h1 : dictGet p kv.1 = some kv.2 := dictGet_of_mem_nodup p hnd kv hm
        rw [show kv.1 = r.field from by simpa using hbeq, hget] at h1
        exact (Option.some.inj h1).symm
      by_cases hlo : r.operation = "lowercase"
      · simp only [applyNormRule, hget, hlo, beq_self_eq_true, if_true, dictInsert, hhas]
        apply List.map_congr_left
        intro kv hm
        by_cases hk : (kv.1 == r.field) = true
        · simp [hk, normOpApply, hval kv hm hk]
        · simp [hk]
      · by_cases hup : r.operation = "uppercase"
        · have hulo : (("uppercase" : String) == "lowercase") = false := by decide
          simp only [applyNormRule, hget, hup, hulo, beq_self_eq_true, if_true,
            Bool.false_eq_true, if_false, dictInsert, hhas]
          apply List.map_congr_left
          intro kv hm
          by_cases hk : (kv.1 == r.field) = true
          · simp [hk, normOpApply, hval kv hm hk]
          · simp [hk]
        · have hlo' : (r.operation == "lowercase") = false := by
            cases hb : (r.operation == "lowercase")
            · rfl
            · exact absurd (by simpa using hb) hlo
          have hup' : (r.operation == "uppercase") = false := by
            cases hb : (r.operation == "uppercase")
            · rfl
            · exact absurd (by simpa using hb) hup
          have hmapid : p.map (fun kv : String × Val =>
              if kv.1 == r.field then (kv.1, normOpApply r.operation kv.2) else kv) = p := by
            calc p.map (fun kv : String × Val =>
                  if kv.1 == r.field then (kv.1, normOpApply r.operation kv.2) else kv)
                = p.map (fun kv => kv) := by
                  apply List.map_congr_left
                  intro kv hm
                  by_cases hk : (kv.1 == r.field) = true
                  · simp [hk, normOpApply, hlo', hup']
                  · simp [hk]
              _ = p := List.map_id' p
          rw [hmapid]
          simp [applyNormRule, hget, hlo', hup']

/-- Helper: a normalization rule does not change the key spine. -/
theorem applyNormRule_keys (p : Payload) (hnd : (p.map Prod.fst).Nodup) (r : NormalizationRule) :
    (applyNormRule p r).map Prod.fst = p.map Prod.fst := by
  rw [applyNormRule_eq_map p hnd r, List.map_map]
  apply List.map_congr_left
  intro kv _
  by_cases hk : kv.1 = r.field <;> simp [hk]

/-- Helper: the whole normalization pass acts per entry, each value
receiving the chain of operations registered for its key. -/
theorem foldlNorm_eq_map (rules : List NormalizationRule) (p : Payload)
    (hnd : (p.map Prod.fst).Nodup) :
    rules.foldl applyNormRule p =
      p.map (fun kv => (kv.1, chainApply (normOpsFor kv.1 rules) kv.2)) := by
  induction rules generalizing p with
  | nil =>
      simp only [List.foldl_nil, normOpsFor, List.filter_nil, List.map_nil]
      calc p = p.map (fun kv => kv) := (List.map_id' p).symm
        _ = p.map (fun kv => (kv.1, chainApply [] kv.2)) :=
            List.map_congr_left (fun kv _ => rfl)
  | cons r rs ih =>
      rw [List.foldl_cons]
      have hnd' : ((applyNormRule p r).map Prod.fst).Nodup := by
        rw [applyNormRule_keys p hnd r]; exact hnd
      rw [ih (applyNormRule p r) hnd', applyNormRule_eq_map p hnd r, List.map_map]
      apply List.map_congr_left
      intro kv _
      simp only [Function.comp_apply]
      by_cases hk : (kv.1 == r.field) = true
      · have hkeq : kv.1 = r.field := by simpa using hk
        have hk' : (r.field == kv.1) = true := by simp [hkeq]
        simp only [hk, if_true]
        have hops : normOpsFor kv.1 (r :: rs) = r.operation :: normOpsFor kv.1 rs := by
          simp [normOpsFor, List.filter_cons, hk']
        rw [hops]
        rfl
      · have hkeq : ¬ kv.1 = r.field := by simpa using hk
        have hk' : (r.field == kv.1) = false := by
          cases hb : (r.field == kv.1)
          · rfl
          · have heq : r.field = kv.1 := by simpa using hb
            exact absurd heq.symm hkeq
        simp only [hk, if_false, Bool.false_eq_true]
        have hops : normOpsFor kv.1 (r :: rs) = normOpsFor kv.1 rs := by
          simp [normOpsFor, List.filter_cons, hk']
        rw [hops]

/-- Helper: a lowercase/uppercase chain applied to a string stays a
string of the same case class. -/
theorem chain_str (ops : List String) (hops : ∀ op ∈ ops, op = "lowercase" ∨ op = "uppercase")
    (u : String) :
    ∃ w, chainApply ops (.str u) = .str w ∧ strLower w = strLower u ∧ strUpper w = strUpper u := by
  induction ops generalizing u with
  | nil => exact ⟨u, rfl, rfl, rfl⟩
  | cons op rest ih =>
      have hrest : ∀ o ∈ rest, o = "lowercase" ∨ o = "uppercase" :=
        fun o ho => hops o (List.mem_cons_of_mem _ ho)
      rcases hops op (List.mem_cons_self _ _) with h | h <;> subst h
      · obtain ⟨w, hw, hl, hu⟩ := ih hrest (strLower u)
        exact ⟨w, hw, by rw [hl, strLower_strLower], by rw [hu, strUpper_strLower]⟩
      · obtain ⟨w, hw, hl, hu⟩ := ih hrest (strUpper u)
        exact ⟨w, hw, by rw [hl, strLower_strUpper], by rw [hu, strUpper_strUpper]⟩

/-- Helper: a lowercase/uppercase chain is idempotent on any value. -/
theorem chainApply_idem (ops : List String)
    (hops : ∀ op ∈ ops, op = "lowercase" ∨ op = "uppercase") (v : Val) :
    chainApply ops (chainApply ops v) = chainApply ops v := by
  cases ops with
  | nil => rfl
  | cons op rest =>
      have hrest : ∀ o ∈ rest, o = "lowercase" ∨ o = "uppercase" :=
        fun o ho => hops o (List.mem_cons_of_mem _ ho)
      rcases hops op (List.mem_cons_self _ _) with h | h <;> subst h
      · have h1 : chainApply ("lowercase" :: rest) v =
            chainApply rest (.str (strLower (valToString v))) := rfl
        obtain ⟨w, hw, hl, hu⟩ := chain_str rest hrest (strLower (valToString v))
        rw [h1, hw]
        have h2 : chainApply ("lowercase" :: rest) (.str w) =
            chainApply rest (.str (strLower w)) := rfl
        rw [h2, show strLower w = strLower (valToString v) from by rw [hl, strLower_strLower], hw]
      · have h1 : chainApply ("uppercase" :: rest) v =
            chainApply rest (.str (strUpper (valToString v))) := rfl
        obtain ⟨w, hw, hl, hu⟩ := chain_str rest hrest (strUpper (valToString v))
        rw [h1, hw]
        have h2 : chainApply ("uppercase" :: rest) (.str w) =
            chainApply rest (.str (strUpper w)) := rfl
        rw [h2, show strUpper w = strUpper (valToString v) from by rw [hu, strUpper_strUpper], hw]

/-- C8.  `apply_normalization` is idempotent: for a canonical-data map
(distinct keys, as a Python dict guarantees) and any ordered list of
lowercase/uppercase normalization rules, re-applying normalization to
already-normalized data is a fixed point. -/
theorem C8_normalization_idempotent (d : Payload) (n : SourceNormalization)
    (hnd : (d.map Prod.fst).Nodup)
    (hops : ∀ r ∈ n.rules, r.operation = "lowercase" ∨ r.operation = "uppercase") :
    apply_normalization (apply_normalization d n) n = apply_normalization d n := by
  unfold apply_normalization
  cases hne : n.rules.isEmpty
  · simp only [Bool.false_eq_true, if_false]
    have hfstkeys : (Prod.fst ∘ fun kv : String × Val =>
        (kv.1, chainApply (normOpsFor kv.1 n.rules) kv.2)) = Prod.fst := funext fun kv => rfl
    have hnd1 : ((n.rules.foldl applyNormRule d).map Prod.fst).Nodup := by
      rw [foldlNorm_eq_map n.rules d hnd, List.map_map, hfstkeys]
      exact hnd
    rw [foldlNorm_eq_map n.rules d hnd] at hnd1 ⊢
    rw [foldlNorm_eq_map n.rules _ hnd1, List.map_map]
    apply List.map_congr_left
    intro kv _
    simp only [Function.comp_apply]
    congr 1
    apply chainApply_idem
    intro op hop
    obtain ⟨r, hr, hrop⟩ := List.mem_map.mp hop
    obtain ⟨hrmem, -⟩ := List.mem_filter.mp hr
    exact hrop ▸ hops r hrmem
  · simp [hne]

/-- Witness for C8 at a concrete input: lower-casing `email` and
upper-casing `country` twice equals doing it once. -/
theorem C8_witness :
    apply_normalization
      (apply_normalization [("email", .str "A@X.com"), ("country", .str "de")]
        ⟨[⟨"email", "lowercase"⟩, ⟨"country", "uppercase"⟩]⟩)
      ⟨[⟨"email", "lowercase"⟩, ⟨"country", "uppercase"⟩]⟩ =
    apply_normalization [("email", .str "A@X.com"), ("country", .str "de")]
      ⟨[⟨"email", "lowercase"⟩, ⟨"country", "uppercase"⟩]⟩ :=
  C8_normalization_idempotent [("email", .str "A@X.com"), ("country", .str "de")]
    ⟨[⟨"email", "lowercase"⟩, ⟨"country", "uppercase"⟩]⟩
    (by decide) (by decide)

/-- C9, counterexample to the claim as stated: an existing
`(tenant, field_name)` entry whose status is `ignored` is returned
untouched by `track_unknown_field` — `detected_count` stays 1 and
`last_seen` stays 0 on a repeat occurrence, where the claim requires an
increment and a refreshed `last_seen`. -/
theorem C9_counterexample :
    track_unknown_field [⟨"t", "o", "s", "x", none, 1, "ignored", 0, 0⟩]
      "s" "x" (.str "v") "o" "t" 5 =
      [⟨"t", "o", "s", "x", none, 1, "ignored", 0, 0⟩] := rfl

/-- C9 (amended).  `track_unknown_field` creates an entry with
`detected_count = 1` on the first occurrence of a field name for a
tenant; on a repeat occurrence of the same `(tenant, field_name)` it
increments `detected_count`, updates `last_seen` and keeps the sample
history bounded — **unless** the entry's status is `ignored`, in which
case it is left untouched (the counterexample).  The sample history
update retains at most 5 distinct values, a suffix (the newest entries)
of the old history with the new sample appended last. -/
theorem C9_track_unknown_amended
    (db : List UnknownField) (source_id field_name : String) (sample_value : Val)
    (owner_id tenant_id : String) (now : Int) :
    ((∀ u ∈ db, ¬(u.field_name = field_name ∧ u.tenant_id = tenant_id)) →
      track_unknown_field db source_id field_name sample_value owner_id tenant_id now =
        db ++ [⟨tenant_id, owner_id, source_id, field_name,
               (match sample_value with | .null => none | v => some (valToString v)),
               1, "unmapped", now, now⟩])
    ∧ (∀ pre u post,
        db = pre ++ u :: post →
        (∀ u' ∈ pre, ¬(u'.field_name = field_name ∧ u'.tenant_id = tenant_id)) →
        u.field_name = field_name → u.tenant_id = tenant_id →
        ¬ u.status = "ignored" →
        track_unknown_field db source_id field_name sample_value owner_id tenant_id now =
          pre ++ { u with detected_count := u.detected_count + 1,
                          last_seen := now,
                          sample_value := updateSampleHistory u.sample_value
                            (match sample_value with | .null => none | v => some (valToString v)) }
            :: post)
    ∧ (∀ (old : Option String) (s : String), ¬ s = "" →
        updateSampleHistory old (some s) = old ∨
        ∃ cs : List String, ¬ cs = [] ∧ cs.length ≤ 5 ∧
          updateSampleHistory old (some s) = some (joinSep ", " cs) ∧
          cs.getLast? = some s ∧
          cs <:+ ((match old with
                   | none => []
                   | some o => if o = "" then [] else pySplit o ", ") ++ [s])) := by
  refine ⟨?_, ?_, ?_⟩
  · intro hnone
    simp only [track_unknown_field]
    induction db with
    | nil => rfl
    | cons u rest ih =>
        have hu := hnone u (List.mem_cons_self _ _)
        have hbeq : (u.field_name == field_name && u.tenant_id == tenant_id) = false := by
          cases hf : (u.field_name == field_name) <;> cases ht : (u.tenant_id == tenant_id) <;>
            simp_all
        have ihr := ih (fun u' hu' => hnone u' (List.mem_cons_of_mem _ hu'))
        simp only [trackGo, hbeq, Bool.false_eq_true, if_false, List.cons_append]
        exact congrArg (List.cons u) ihr
  · intro pre u post hdb hpre hf ht hst
    subst hdb
    simp only [track_unknown_field]
    induction pre with
    | nil =>
        have hbeq : (u.field_name == field_name && u.tenant_id == tenant_id) = true := by
          simp [hf, ht]
        have hign : (u.status == "ignored") = false := by
          cases hb : (u.status == "ignored")
          · rfl
          · exact absurd (by simpa using hb) hst
        simp [trackGo, hbeq, hign]
    | cons p0 pre' ih =>
        have hp0 := hpre p0 (List.mem_cons_self _ _)
        have hbeq : (p0.field_name == field_name && p0.tenant_id == tenant_id) = false := by
          cases hfb : (p0.field_name == field_name) <;> cases htb : (p0.tenant_id == tenant_id) <;>
            simp_all
        have ihr := ih (fun u' hu' => hpre u' (List.mem_cons_of_mem _ hu'))
        simp only [List.cons_append, trackGo, hbeq, Bool.false_eq_true, if_false]
        exact congrArg (List.cons p0) ihr
  · intro old s hs
    unfold updateSampleHistory
    have hsb : (s == "") = false := by
      cases hb : (s == "")
      · rfl
      · exact absurd (by simpa using hb) hs
    simp only [hsb, Bool.false_eq_true, if_false]
    set current : List String := (match old with
      | none => []
      | some o => if o = "" then [] else pySplit o ", ") with hcur
    by_cases hmem : current.contains s
    · left
      simp [hmem]
      intro hcon
      exact absurd (by simpa using hmem) hcon
    · right
      have hmem' : current.contains s = false := by
        cases hb : current.contains s
        · rfl
        · exact absurd hb hmem
      by_cases hlen : (current ++ [s]).length > 5
      · refine ⟨(current ++ [s]).drop ((current ++ [s]).length - 5), ?_, ?_, ?_, ?_, ?_⟩
        · have : ((current ++ [s]).drop ((current ++ [s]).length - 5)).length = 5 := by
            rw [List.length_drop]
            omega
          intro hnil
          rw [hnil] at this
          simp at this
        · rw [List.length_drop]
          omega
        · cases old with
          | none => simp only [hcur] at hmem' hlen ⊢; simp_all
          | some o =>
              simp only [hcur] at hmem' hlen ⊢
              simp_all
        · have hle : (current ++ [s]).length - 5 ≤ current.length := by
            simp only [List.length_append, List.length_cons, List.length_nil] at hlen ⊢
            omega
          rw [List.drop_append_of_le_length hle]
          exact List.getLast?_concat _
        · exact List.drop_suffix _ _
      · refine ⟨current ++ [s], by simp, ?_, ?_, List.getLast?_concat _, List.suffix_refl _⟩
        · omega
        · cases old with
          | none => simp only [hcur] at hmem' hlen ⊢; simp_all
          | some o =>
              simp only [hcur] at hmem' hlen ⊢
              simp_all

/-- Witness for the amended C9 at a concrete input: the first occurrence
of `phone_no` for the tenant creates an entry with `detected_count = 1`. -/
theorem C9_witness :
    track_unknown_field [] "s1" "phone_no" (.str "555") "o" "t" 3 =
      [⟨"t", "o", "s1", "phone_no", some "555", 1, "unmapped", 3, 3⟩] :=
  (C9_track_unknown_amended [] "s1" "phone_no" (.str "555") "o" "t" 3).1
    (fun u hu => absurd hu (List.not_mem_nil u))

/-- C4, the code evaluated at the claim's concrete scenario: a source
with dedupe on `email` and `dupe_check_days = 0`; `email` is a canonical
field of the tenant.  The first ingest of `{email: "a@x.com"}` persists a
`processed` record, but the second — a duplicate — makes `process_record`
raise `AttributeError` while reading the undeclared
`source.config.duplicate_redirect_source_id` attribute, **before** any
rejected record is persisted: no second record with status `rejected`
ever exists, where the claim requires one with a reason containing
"duplicate". -/
theorem C4_duplicate_branch_raises :
    (Except.map (fun r : World × Payload => r.1.leads.map (fun l => l.status))
      (process_record (fun _ _ => none)
        ⟨[⟨"t", "o", "email", []⟩], [], [], [], [], [], [], [], 1, ⟨100, "12:00", "monday", 0, 90⟩⟩
        [("email", .str "a@x.com")]
        ⟨"s1", "S", ⟨"enabled", true, 0, ["email"], "or"⟩, ⟨[]⟩, ⟨[]⟩, ⟨none⟩⟩
        "o" "t" (some "v"))) = .ok ["processed"] ∧
    ((process_record (fun _ _ => none)
        ⟨[⟨"t", "o", "email", []⟩], [], [], [], [], [], [], [], 1, ⟨100, "12:00", "monday", 0, 90⟩⟩
        [("email", .str "a@x.com")]
        ⟨"s1", "S", ⟨"enabled", true, 0, ["email"], "or"⟩, ⟨[]⟩, ⟨[]⟩, ⟨none⟩⟩
        "o" "t" (some "v")).bind (fun r =>
      process_record (fun _ _ => none) r.1
        [("email", .str "a@x.com")]
        ⟨"s1", "S", ⟨"enabled", true, 0, ["email"], "or"⟩, ⟨[]⟩, ⟨[]⟩, ⟨none⟩⟩
        "o" "t" (some "v"))) =
      .error "AttributeError: SourceConfig object has no attribute duplicate_redirect_source_id" :=
  ⟨rfl, rfl⟩

/-- C6, the code evaluated at the claim's scenario: a campaign with a
Monday cap of 1 on a Monday, an empty delivery history, and one eligible
`processed` record.  The claim requires the first record of the day to be
delivered (1 ≤ N = 1).  Instead, the cap-count aggregation — whose
`$match` document carries `$elemMatch` at top level — fails, the
exception aborts `find_eligible_campaigns` (its `try/except` returns the
candidates gathered so far), and the record receives **zero** delivery
attempts. -/
theorem C6_cap_query_fails :
    check_caps_and_schedule
      ⟨[], [], [], [⟨7, "t", "o", "v", "s1", none, [("x", .int 1)], [], "processed", none, [], 0⟩],
       [⟨"c1", "Cust", "t", "enabled", [42]⟩],
       [⟨42, "t", "M", "d1", [], ⟨1, "enabled", some 1, none, none, none, none, none, none,
           true, some "00:00", some "23:59", none, none⟩, ⟨none⟩, ⟨[]⟩⟩],
       [⟨"d1", "D", true, "approved", ⟨"http://x", "GET", [], "none", [], 5⟩⟩],
       [], 50, ⟨100, "12:00", "monday", 0, 90⟩⟩
      ⟨42, "t", "M", "d1", [], ⟨1, "enabled", some 1, none, none, none, none, none, none,
          true, some "00:00", some "23:59", none, none⟩, ⟨none⟩, ⟨[]⟩⟩
      "t" = .error "OperationFailure: unknown top level operator" ∧
    find_eligible_campaigns (fun _ _ => none)
      ⟨[], [], [], [⟨7, "t", "o", "v", "s1", none, [("x", .int 1)], [], "processed", none, [], 0⟩],
       [⟨"c1", "Cust", "t", "enabled", [42]⟩],
       [⟨42, "t", "M", "d1", [], ⟨1, "enabled", some 1, none, none, none, none, none, none,
           true, some "00:00", some "23:59", none, none⟩, ⟨none⟩, ⟨[]⟩⟩],
       [⟨"d1", "D", true, "approved", ⟨"http://x", "GET", [], "none", [], 5⟩⟩],
       [], 50, ⟨100, "12:00", "monday", 0, 90⟩⟩
      ⟨7, "t", "o", "v", "s1", none, [("x", .int 1)], [], "processed", none, [], 0⟩ = [] ∧
    ((execute_routing (fun _ _ => none) (fun _ => .ok ⟨200, "ok"⟩)
      ⟨[], [], [], [⟨7, "t", "o", "v", "s1", none, [("x", .int 1)], [], "processed", none, [], 0⟩],
       [⟨"c1", "Cust", "t", "enabled", [42]⟩],
       [⟨42, "t", "M", "d1", [], ⟨1, "enabled", some 1, none, none, none, none, none, none,
           true, some "00:00", some "23:59", none, none⟩, ⟨none⟩, ⟨[]⟩⟩],
       [⟨"d1", "D", true, "approved", ⟨"http://x", "GET", [], "none", [], 5⟩⟩],
       [], 50, ⟨100, "12:00", "monday", 0, 90⟩⟩
      7).leads.map (fun l => l.routing_results.length)) = [0] :=
  ⟨rfl, rfl, rfl⟩

/-- Helper: `deliver_to_campaign` is exactly the per-pair attempt applied
to the carried lead and saved back. -/
theorem deliver_to_campaign_eq (http : HttpOracle) (w : World) (lead : Lead)
    (cu : Customer) (ca : Campaign) :
    deliver_to_campaign http w lead cu ca =
      match attemptFor http w.destinations w.clock.t lead.data (cu, ca) with
      | none => (w, lead)
      | some r =>
          ({ w with leads := w.leads.map (fun l =>
              if l.id == lead.id then { lead with routing_results := lead.routing_results ++ [r] }
              else l) },
           { lead with routing_results := lead.routing_results ++ [r] }) := by
  unfold deliver_to_campaign attemptFor
  cases hfind : w.destinations.find? (fun d => d.id == ca.destination_id) with
  | none => rfl
  | some destination =>
      by_cases hen : destination.enabled
      · by_cases hap : (destination.approval_status == "approved") = true
        · simp only [hen, hap, Bool.not_true, Bool.false_eq_true, if_false]
          rfl
        · have hap' : (destination.approval_status == "approved") = false := by
            cases hb : (destination.approval_status == "approved")
            · rfl
            · exact absurd hb hap
          simp [hen, hap']
      · have hen' : destination.enabled = false := by
          cases hb : destination.enabled
          · rfl
          · exact absurd hb hen
        simp [hen']

/-- Helper: the dispatch loop appends exactly one result per pair whose
attempt exists, in order, independent of the other pairs. -/
theorem routeFold_results (http : HttpOracle) (l : List (Customer × Campaign))
    (w : World) (lead : Lead) :
    (routeFold http l (w, lead)).2.routing_results =
      lead.routing_results ++ l.filterMap (attemptFor http w.destinations w.clock.t lead.data) := by
  induction l generalizing w lead with
  | nil => simp [routeFold]
  | cons cc rest ih =>
      show (routeFold http rest (deliver_to_campaign http w lead cc.1 cc.2)).2.routing_results = _
      rw [deliver_to_campaign_eq]
      cases hat : attemptFor http w.destinations w.clock.t lead.data (cc.1, cc.2) with
      | none =>
          simp only []
          rw [ih w lead, List.filterMap_cons]
          simp [hat]
      | some r =>
          simp only []
          rw [ih _ _, List.filterMap_cons]
          simp [hat]

instance : IsTotal (Customer × Campaign) priorityGe :=
  ⟨fun a b => le_total b.2.config.priority a.2.config.priority⟩

instance : IsTrans (Customer × Campaign) priorityGe :=
  ⟨fun _ _ _ hab hbc => le_trans hbc hab⟩

/-- Helper: inserting into a sorted-by-priority list keeps each priority
class in relative order (the inserted element lands before exactly the
strictly-lower priorities, hence after every earlier element of its own
priority). -/
theorem filter_orderedInsert (a : Customer × Campaign) (l : List (Customer × Campaign)) (p : Int) :
    (List.orderedInsert priorityGe a l).filter (fun cc => cc.2.config.priority == p) =
      if a.2.config.priority = p then
        a :: l.filter (fun cc => cc.2.config.priority == p)
      else l.filter (fun cc => cc.2.config.priority == p) := by
  induction l with
  | nil =>
      by_cases hp : a.2.config.priority = p <;> simp [List.orderedInsert, hp]
  | cons b t ih =>
      by_cases hr : priorityGe a b
      · rw [List.orderedInsert, if_pos hr]
        by_cases hp : a.2.config.priority = p <;> simp [hp]
      · rw [List.orderedInsert, if_neg hr]
        have hbp : b.2.config.priority ≤ a.2.config.priority → False := hr
        by_cases hp : a.2.config.priority = p
        · have hbne : ¬ b.2.config.priority = p := by
            intro hbp2
            exact hbp (by omega)
          simp only [List.filter_cons, hbne, ih, hp, if_pos]
          simp [hbne]
        · simp only [List.filter_cons, ih, hp, if_neg]
          by_cases hb : b.2.config.priority = p <;> simp [hb]

/-- Helper: the descending-priority sort is stable: every priority class
keeps its discovery order. -/
theorem sortEligible_stable (l : List (Customer × Campaign)) (p : Int) :
    (sortEligible l).filter (fun cc => cc.2.config.priority == p) =
      l.filter (fun cc => cc.2.config.priority == p) := by
  induction l with
  | nil => rfl
  | cons a t ih =>
      show (List.orderedInsert priorityGe a (List.insertionSort priorityGe t)).filter _ = _
      rw [filter_orderedInsert]
      by_cases hp : a.2.config.priority = p
      · simp only [hp, if_pos, List.filter_cons]
        rw [show sortEligible t = List.insertionSort priorityGe t from rfl] at ih
        simp [ih, hp]
      · simp only [hp, if_neg, List.filter_cons]
        rw [show sortEligible t = List.insertionSort priorityGe t from rfl] at ih
        simp [ih, hp]

/-- C5.  For a `processed` record, `execute_routing` sorts the eligible
targets by descending priority (a stable sort: ties keep discovery
order, and the sorted list is a permutation of the eligible list) and
dispatches an attempt to every one of them in that order — broadcast
fan-out, priority governing order only.  Concretely, a record eligible
for campaign A (priority 2) and campaign B (priority 1), discovered in
the order B then A, receives delivery attempts to both, A's attempt
recorded before B's. -/
theorem C5_broadcast_priority_order (re_search : ReOracle) (http : HttpOracle)
    (w : World) (lead_id : Nat) (lead : Lead)
    (hfind : w.leads.find? (fun l => l.id == lead_id) = some lead)
    (hst : lead.status = "processed") :
    (execute_routing re_search http w lead_id =
        (routeFold http (sortEligible (find_eligible_campaigns re_search w lead)) (w, lead)).1)
    ∧ (sortEligible (find_eligible_campaigns re_search w lead)).Perm
        (find_eligible_campaigns re_search w lead)
    ∧ List.Sorted priorityGe (sortEligible (find_eligible_campaigns re_search w lead))
    ∧ (∀ p : Int,
        (sortEligible (find_eligible_campaigns re_search w lead)).filter
            (fun cc => cc.2.config.priority == p) =
          (find_eligible_campaigns re_search w lead).filter
            (fun cc => cc.2.config.priority == p))
    ∧ ((routeFold http (sortEligible (find_eligible_campaigns re_search w lead))
          (w, lead)).2.routing_results =
        lead.routing_results ++
          (sortEligible (find_eligible_campaigns re_search w lead)).filterMap
            (attemptFor http w.destinations w.clock.t lead.data))
    ∧ ((execute_routing (fun _ _ => none) (fun _ => Except.ok ⟨200, "ok"⟩)
        ⟨[], [], [],
         [⟨7, "t", "o", "v", "s1", none, [("x", .int 1)], [], "processed", none, [], 0⟩],
         [⟨"c1", "Cust", "t", "enabled", [43, 42]⟩],
         [⟨43, "t", "B", "d1", [], ⟨1, "enabled", none, none, none, none, none, none, none,
             true, some "00:00", some "23:59", none, none⟩, ⟨none⟩, ⟨[]⟩⟩,
          ⟨42, "t", "A", "d1", [], ⟨2, "enabled", none, none, none, none, none, none, none,
             true, some "00:00", some "23:59", none, none⟩, ⟨none⟩, ⟨[]⟩⟩],
         [⟨"d1", "D", true, "approved", ⟨"http://x", "GET", [], "none", [], 5⟩⟩],
         [], 50, ⟨100, "12:00", "monday", 0, 90⟩⟩
        7).leads.map (fun l => l.routing_results.map (fun r => (r.campaign_name, r.status)))) =
        [[(some "A", "delivered"), (some "B", "delivered")]] := by
  refine ⟨?_, List.perm_insertionSort _ _, List.sorted_insertionSort _ _,
         fun p => sortEligible_stable _ p, routeFold_results http _ w lead, rfl⟩
  unfold execute_routing
  rw [hfind]
  simp [hst]

/-- Witness for C5 at the concrete two-campaign world: the lead with id 7
is found with status `processed`, and the theorem's conclusions hold
there. -/
theorem C5_witness :
    (execute_routing (fun _ _ => none) (fun _ => Except.ok ⟨200, "ok"⟩)
        ⟨[], [], [],
         [⟨7, "t", "o", "v", "s1", none, [("x", .int 1)], [], "processed", none, [], 0⟩],
         [⟨"c1", "Cust", "t", "enabled", [43, 42]⟩],
         [⟨43, "t", "B", "d1", [], ⟨1, "enabled", none, none, none, none, none, none, none,
             true, some "00:00", some "23:59", none, none⟩, ⟨none⟩, ⟨[]⟩⟩,
          ⟨42, "t", "A", "d1", [], ⟨2, "enabled", none, none, none, none, none, none, none,
             true, some "00:00", some "23:59", none, none⟩, ⟨none⟩, ⟨[]⟩⟩],
         [⟨"d1", "D", true, "approved", ⟨"http://x", "GET", [], "none", [], 5⟩⟩],
         [], 50, ⟨100, "12:00", "monday", 0, 90⟩⟩
        7 =
      (routeFold (fun _ => Except.ok ⟨200, "ok"⟩)
        (sortEligible (find_eligible_campaigns (fun _ _ => none)
          ⟨[], [], [],
           [⟨7, "t", "o", "v", "s1", none, [("x", .int 1)], [], "processed", none, [], 0⟩],
           [⟨"c1", "Cust", "t", "enabled", [43, 42]⟩],
           [⟨43, "t", "B", "d1", [], ⟨1, "enabled", none, none, none, none, none, none, none,
               true, some "00:00", some "23:59", none, none⟩, ⟨none⟩, ⟨[]⟩⟩,
            ⟨42, "t", "A", "d1", [], ⟨2, "enabled", none, none, none, none, none, none, none,
               true, some "00:00", some "23:59", none, none⟩, ⟨none⟩, ⟨[]⟩⟩],
           [⟨"d1", "D", true, "approved", ⟨"http://x", "GET", [], "none", [], 5⟩⟩],
           [], 50, ⟨100, "12:00", "monday", 0, 90⟩⟩
          ⟨7, "t", "o", "v", "s1", none, [("x", .int 1)], [], "processed", none, [], 0⟩))
        (⟨[], [], [],
          [⟨7, "t", "o", "v", "s1", none, [("x", .int 1)], [], "processed", none, [], 0⟩],
          [⟨"c1", "Cust", "t", "enabled", [43, 42]⟩],
          [⟨43, "t", "B", "d1", [], ⟨1, "enabled", none, none, none, none, none, none, none,
              true, some "00:00", some "23:59", none, none⟩, ⟨none⟩, ⟨[]⟩⟩,
           ⟨42, "t", "A", "d1", [], ⟨2, "enabled", none, none, none, none, none, none, none,
              true, some "00:00", some "23:59", none, none⟩, ⟨none⟩, ⟨[]⟩⟩],
          [⟨"d1", "D", true, "approved", ⟨"http://x", "GET", [], "none", [], 5⟩⟩],
          [], 50, ⟨100, "12:00", "monday", 0, 90⟩⟩,
         ⟨7, "t", "o", "v", "s1", none, [("x", .int 1)], [], "processed", none, [], 0⟩)).1) :=
  (C5_broadcast_priority_order (fun _ _ => none) (fun _ => Except.ok ⟨200, "ok"⟩)
    ⟨[], [], [],
     [⟨7, "t", "o", "v", "s1", none, [("x", .int 1)], [], "processed", none, [], 0⟩],
     [⟨"c1", "Cust", "t", "enabled", [43, 42]⟩],
     [⟨43, "t", "B", "d1", [], ⟨1, "enabled", none, none, none, none, none, none, none,
         true, some "00:00", some "23:59", none, none⟩, ⟨none⟩, ⟨[]⟩⟩,
      ⟨42, "t", "A", "d1", [], ⟨2, "enabled", none, none, none, none, none, none, none,
         true, some "00:00", some "23:59", none, none⟩, ⟨none⟩, ⟨[]⟩⟩],
     [⟨"d1", "D", true, "approved", ⟨"http://x", "GET", [], "none", [], 5⟩⟩],
     [], 50, ⟨100, "12:00", "monday", 0, 90⟩⟩
    7 ⟨7, "t", "o", "v", "s1", none, [("x", .int 1)], [], "processed", none, [], 0⟩
    rfl rfl).1

/-- C7.  Per-target delivery never propagates a failure: (1) whatever the
per-pair attempt produces is appended as that pair's result and delivery
returns normally; (2) a transport error or timeout (oracle `error`)
yields a `failed` result carrying the error text; (3) a non-2xx response
(`raise_for_status`) yields a `failed` result carrying the status text;
(4) the dispatch loop appends exactly the per-pair attempts, each
depending only on its own pair — so one target's failure never blocks or
alters the other targets' attempts; (5) every eligible pair whose
destination is present, enabled and approved receives an attempt, for
every oracle; and (6) `DeliveryEngine.dispatch` likewise returns a
`failed` result with the error text captured instead of raising. -/
theorem C7_failure_containment (http : HttpOracle) :
    (∀ (w : World) (lead : Lead) (cu : Customer) (ca : Campaign) (r : RoutingResult),
        attemptFor http w.destinations w.clock.t lead.data (cu, ca) = some r →
        (deliver_to_campaign http w lead cu ca).2.routing_results =
          lead.routing_results ++ [r])
    ∧ (∀ (dests : List Destination) (now : Int) (data : Payload) (cc : Customer × Campaign)
        (destination : Destination) (e : String),
        dests.find? (fun d => d.id == cc.2.destination_id) = some destination →
        destination.enabled = true →
        destination.approval_status = "approved" →
        (buildDeliveryRequest destination.config (outboundFor data cc.2)).bind http = .error e →
        attemptFor http dests now data cc =
          some ⟨cc.1.id, some cc.1.name, toString cc.2.id, some cc.2.name,
                some destination.id, some destination.name, "failed", now, some e⟩)
    ∧ (∀ (dests : List Destination) (now : Int) (data : Payload) (cc : Customer × Campaign)
        (destination : Destination) (resp : HttpResponse),
        dests.find? (fun d => d.id == cc.2.destination_id) = some destination →
        destination.enabled = true →
        destination.approval_status = "approved" →
        (buildDeliveryRequest destination.config (outboundFor data cc.2)).bind http = .ok resp →
        isSuccessStatus resp.status_code = false →
        attemptFor http dests now data cc =
          some ⟨cc.1.id, some cc.1.name, toString cc.2.id, some cc.2.name,
                some destination.id, some destination.name, "failed", now,
                some ("HTTP status error " ++ toString resp.status_code ++
                  " for url " ++ destination.config.url)⟩)
    ∧ (∀ (l : List (Customer × Campaign)) (w : World) (lead : Lead),
        (routeFold http l (w, lead)).2.routing_results =
          lead.routing_results ++
            l.filterMap (attemptFor http w.destinations w.clock.t lead.data))
    ∧ (∀ (dests : List Destination) (now : Int) (data : Payload) (cc : Customer × Campaign)
        (destination : Destination),
        dests.find? (fun d => d.id == cc.2.destination_id) = some destination →
        destination.enabled = true →
        destination.approval_status = "approved" →
        (attemptFor http dests now data cc).isSome = true)
    ∧ (∀ (payload : Payload) (destination : Destination),
        ∃ e, dispatch http payload destination = ⟨"failed", none, none, some e⟩) := by
  have hat : ∀ (dests : List Destination) (now : Int) (data : Payload)
      (cc : Customer × Campaign) (destination : Destination),
      dests.find? (fun d => d.id == cc.2.destination_id) = some destination →
      destination.enabled = true →
      destination.approval_status = "approved" →
      attemptFor http dests now data cc =
        some ⟨cc.1.id, some cc.1.name, toString cc.2.id, some cc.2.name,
              some destination.id, some destination.name,
              (match (buildDeliveryRequest destination.config (outboundFor data cc.2)).bind http with
               | .ok resp => if isSuccessStatus resp.status_code then "delivered" else "failed"
               | .error _ => "failed"),
              now,
              (match (buildDeliveryRequest destination.config (outboundFor data cc.2)).bind http with
               | .ok resp =>
                   if isSuccessStatus resp.status_code then none
                   else some ("HTTP status error " ++ toString resp.status_code ++
                     " for url " ++ destination.config.url)
               | .error e => some e)⟩ := by
    intro dests now data cc destination hfind hen hap
    unfold attemptFor
    rw [hfind]
    simp only [hen, hap, beq_self_eq_true, Bool.not_true, Bool.false_eq_true, if_false]
    cases hb : (buildDeliveryRequest destination.config (outboundFor data cc.2)).bind http with
    | ok resp =>
        by_cases hsucc : isSuccessStatus resp.status_code = true
        · simp [outboundFor, hb, hsucc]
        · have hsucc' : isSuccessStatus resp.status_code = false := by
            cases hs : isSuccessStatus resp.status_code
            · rfl
            · exact absurd hs hsucc
          simp [outboundFor, hb, hsucc']
    | error e => simp [outboundFor, hb]
  refine ⟨?_, ?_, ?_, fun l w lead => routeFold_results http l w lead, ?_, ?_⟩
  · intro w lead cu ca r hr
    rw [deliver_to_campaign_eq, hr]
  · intro dests now data cc destination e hfind hen hap hbind
    rw [hat dests now data cc destination hfind hen hap, hbind]
  · intro dests now data cc destination resp hfind hen hap hbind hsucc
    rw [hat dests now data cc destination hfind hen hap, hbind]
    simp [hsucc]
  · intro dests now data cc destination hfind hen hap
    rw [hat dests now data cc destination hfind hen hap]
    rfl
  · intro payload destination
    exact ⟨"AttributeError: DestinationConfig object has no attribute content_type", rfl⟩

/-- Witness for C7 at a concrete input: with an oracle that always fails
with "Connection refused", the single eligible campaign still gets its
attempt, recorded as `failed` with the error text; and `dispatch`
captures its error instead of raising. -/
theorem C7_witness :
    (deliver_to_campaign (fun _ => Except.error "Connection refused")
      ⟨[], [], [],
       [⟨7, "t", "o", "v", "s1", none, [("x", .int 1)], [], "processed", none, [], 0⟩],
       [⟨"c1", "Cust", "t", "enabled", [43]⟩],
       [⟨43, "t", "B", "d1", [], ⟨1, "enabled", none, none, none, none, none, none, none,
           true, some "00:00", some "23:59", none, none⟩, ⟨none⟩, ⟨[]⟩⟩],
       [⟨"d1", "D", true, "approved", ⟨"http://x", "GET", [], "none", [], 5⟩⟩],
       [], 50, ⟨100, "12:00", "monday", 0, 90⟩⟩
      ⟨7, "t", "o", "v", "s1", none, [("x", .int 1)], [], "processed", none, [], 0⟩
      ⟨"c1", "Cust", "t", "enabled", [43]⟩
      ⟨43, "t", "B", "d1", [], ⟨1, "enabled", none, none, none, none, none, none, none,
          true, some "00:00", some "23:59", none, none⟩, ⟨none⟩, ⟨[]⟩⟩).2.routing_results =
      [⟨"c1", some "Cust", "43", some "B", some "d1", some "D", "failed", 100,
        some "Connection refused"⟩] ∧
    (∃ e, dispatch (fun _ => Except.error "Connection refused") [("x", .int 1)]
        ⟨"d1", "D", true, "approved", ⟨"http://x", "POST", [], "none", [], 5⟩⟩ =
      ⟨"failed", none, none, some e⟩) := by
  constructor
  · have h2 := (C7_failure_containment (fun _ => Except.error "Connection refused")).2.1
      [⟨"d1", "D", true, "approved", ⟨"http://x", "GET", [], "none", [], 5⟩⟩] 100
      [("x", .int 1)]
      (⟨"c1", "Cust", "t", "enabled", [43]⟩,
       ⟨43, "t", "B", "d1", [], ⟨1, "enabled", none, none, none, none, none, none, none,
           true, some "00:00", some "23:59", none, none⟩, ⟨none⟩, ⟨[]⟩⟩)
      ⟨"d1", "D", true, "approved", ⟨"http://x", "GET", [], "none", [], 5⟩⟩
      "Connection refused" rfl rfl rfl rfl
    have h1 := (C7_failure_containment (fun _ => Except.error "Connection refused")).1
      ⟨[], [], [],
       [⟨7, "t", "o", "v", "s1", none, [("x", .int 1)], [], "processed", none, [], 0⟩],
       [⟨"c1", "Cust", "t", "enabled", [43]⟩],
       [⟨43, "t", "B", "d1", [], ⟨1, "enabled", none, none, none, none, none, none, none,
           true, some "00:00", some "23:59", none, none⟩, ⟨none⟩, ⟨[]⟩⟩],
       [⟨"d1", "D", true, "approved", ⟨"http://x", "GET", [], "none", [], 5⟩⟩],
       [], 50, ⟨100, "12:00", "monday", 0, 90⟩⟩
      ⟨7, "t", "o", "v", "s1", none, [("x", .int 1)], [], "processed", none, [], 0⟩
      ⟨"c1", "Cust", "t", "enabled", [43]⟩
      ⟨43, "t", "B", "d1", [], ⟨1, "enabled", none, none, none, none, none, none, none,
          true, some "00:00", some "23:59", none, none⟩, ⟨none⟩, ⟨[]⟩⟩
      _ h2
    simpa using h1
  · exact (C7_failure_containment (fun _ => Except.error "Connection refused")).2.2.2.2.2
      [("x", .int 1)] ⟨"d1", "D", true, "approved", ⟨"http://x", "POST", [], "none", [], 5⟩⟩

end Claims
